import Mathlib

/-!
Verification of the rclaw multi-agent coordination core against its
specification. The TypeScript sources (WorkTracker, AgentSecurityManager,
RoleManager, MessageRouter, MultiAgentOrchestrator) are shallowly embedded:
in-memory `Map`s become association lists that keep JavaScript `Map`
insertion-order semantics, `Date.now()` becomes an explicit `now : Int`
parameter (epoch milliseconds), and mutation becomes explicit state passing.
-/

namespace RClaw

/-! ### Association-list model of JavaScript `Map` and `Set` -/

/-- Lookup in a JS `Map` modelled as an association list (insertion order). -/
def lookupA {α : Type} (m : List (String × α)) (k : String) : Option α :=
  (m.find? (fun p => p.1 = k)).map (fun p => p.2)

/-- JS `Map.set`: updating an existing key keeps its position, a new key is
appended at the end. -/
def insertA {α : Type} (m : List (String × α)) (k : String) (v : α) :
    List (String × α) :=
  if (m.find? (fun p => p.1 = k)).isSome then
    m.map (fun p => if p.1 = k then (k, v) else p)
  else
    m ++ [(k, v)]

/-- JS `Map.delete`. -/
def eraseA {α : Type} (m : List (String × α)) (k : String) : List (String × α) :=
  m.filter (fun p => p.1 ≠ k)

/-- JS `Set.add` on a `Set<string>` modelled as a duplicate-free list in
insertion order. -/
def addS (s : List String) (x : String) : List String :=
  if x ∈ s then s else s ++ [x]

/-! ### Protocol data model -/

/-- Agent identity tuple from `protocol.ts` (`MultiAgentIdentity`). -/
structure MultiAgentIdentity where
  agentInstanceId : String
  agentConfigId : String
  gatewayId : String
  roleId : Option String := none
  displayName : Option String := none
deriving DecidableEq, Repr

/-- Outcome status of `TaskResultPayload` (`"success" | "failure" |
"partial" | "timeout"`). -/
inductive ResultStatus where
  | success
  | failure
  | partialResult
  | timeout
deriving DecidableEq, Repr

/-- The `task.result` payload fields the Work Tracker consumes. -/
structure TaskResultPayload where
  status : ResultStatus
  result : Option String := none
  error : Option String := none
  durationMs : Option Int := none
  workflowStepId : Option String := none
deriving DecidableEq, Repr

/-! ### Work Tracker (`work-tracker.ts`) -/

/-- Task status union from `work-tracker.ts`. -/
inductive TaskStatus where
  | pending
  | assigned
  | inProgress
  | completed
  | failed
  | timeout
  | cancelled
deriving DecidableEq, Repr

/-- The `TrackedTask` record. Timestamps are epoch milliseconds. -/
structure TrackedTask where
  taskId : String
  correlationId : String
  task : String
  status : TaskStatus
  assignedTo : Option MultiAgentIdentity := none
  requestedBy : Option MultiAgentIdentity := none
  workflowStepId : Option String := none
  workflowPlanId : Option String := none
  priority : Int
  createdAt : Int
  assignedAt : Option Int := none
  startedAt : Option Int := none
  completedAt : Option Int := none
  deadline : Option Int := none
  progressPercent : Option Int := none
  statusLine : Option String := none
  result : Option TaskResultPayload := none
  retryCount : Nat
  maxRetries : Nat
  tags : List String
deriving DecidableEq, Repr

/-- The WorkTracker's primary map and its three indices. -/
structure WorkTracker where
  tasks : List (String × TrackedTask)
  agentTaskIndex : List (String × List String)
  workflowTaskIndex : List (String × List String)
  stepIndex : List (String × String)
deriving DecidableEq, Repr

/-- A fresh `WorkTracker`. -/
def WorkTracker.empty : WorkTracker :=
  { tasks := [], agentTaskIndex := [], workflowTaskIndex := [], stepIndex := [] }

/-- Options accepted by `WorkTracker.createTask`. -/
structure CreateTaskOpts where
  taskId : String
  correlationId : String
  task : String
  requestedBy : Option MultiAgentIdentity := none
  workflowStepId : Option String := none
  workflowPlanId : Option String := none
  priority : Option Int := none
  deadline : Option Int := none
  maxRetries : Option Nat := none
  tags : Option (List String) := none
deriving Repr

/-- `WorkTracker.createTask`: status `pending`, priority default 50,
maxRetries default 2, registers the workflow-plan and step indices. -/
def createTask (wt : WorkTracker) (opts : CreateTaskOpts) (now : Int) :
    WorkTracker × TrackedTask :=
  let tracked : TrackedTask :=
    { taskId := opts.taskId
      correlationId := opts.correlationId
      task := opts.task
      status := .pending
      requestedBy := opts.requestedBy
      workflowStepId := opts.workflowStepId
      workflowPlanId := opts.workflowPlanId
      priority := opts.priority.getD 50
      createdAt := now
      deadline := opts.deadline
      retryCount := 0
      maxRetries := opts.maxRetries.getD 2
      tags := opts.tags.getD [] }
  let tasks' := insertA wt.tasks tracked.taskId tracked
  let wfIndex :=
    match opts.workflowPlanId with
    | some pid =>
        let s := (lookupA wt.workflowTaskIndex pid).getD []
        insertA wt.workflowTaskIndex pid (addS s tracked.taskId)
    | none => wt.workflowTaskIndex
  let stepIndex' :=
    match opts.workflowStepId with
    | some sid => insertA wt.stepIndex sid tracked.taskId
    | none => wt.stepIndex
  ({ wt with tasks := tasks', workflowTaskIndex := wfIndex,
             stepIndex := stepIndex' }, tracked)

/-- `WorkTracker.assignTask`: allowed only from `pending` or `failed`. -/
def assignTask (wt : WorkTracker) (taskId : String)
    (agent : MultiAgentIdentity) (now : Int) : WorkTracker × Bool :=
  match lookupA wt.tasks taskId with
  | none => (wt, false)
  | some task =>
    if task.status ≠ .pending ∧ task.status ≠ .failed then (wt, false)
    else
      let t' := { task with status := .assigned, assignedTo := some agent,
                            assignedAt := some now }
      let agentTasks := (lookupA wt.agentTaskIndex agent.agentInstanceId).getD []
      ({ wt with
          tasks := insertA wt.tasks taskId t'
          agentTaskIndex :=
            insertA wt.agentTaskIndex agent.agentInstanceId
              (addS agentTasks taskId) }, true)

/-- `WorkTracker.startTask`: allowed only from `assigned`. -/
def startTask (wt : WorkTracker) (taskId : String) (now : Int) :
    WorkTracker × Bool :=
  match lookupA wt.tasks taskId with
  | none => (wt, false)
  | some task =>
    if task.status ≠ .assigned then (wt, false)
    else
      let t' := { task with status := .inProgress, startedAt := some now }
      ({ wt with tasks := insertA wt.tasks taskId t' }, true)

/-- Status a `completeTask` call produces from the result payload's status. -/
def resultToTaskStatus (r : ResultStatus) : TaskStatus :=
  match r with
  | .success => .completed
  | .partialResult => .completed
  | .timeout => .timeout
  | .failure => .failed

/-- `WorkTracker.completeTask`: records `completedAt`, the result and 100%
progress and maps the result status; the source has no guard on the current
status. -/
def completeTask (wt : WorkTracker) (taskId : String)
    (result : TaskResultPayload) (now : Int) : WorkTracker × Bool :=
  match lookupA wt.tasks taskId with
  | none => (wt, false)
  | some task =>
    let t' := { task with
        completedAt := some now
        result := some result
        progressPercent := some 100
        status := resultToTaskStatus result.status }
    ({ wt with tasks := insertA wt.tasks taskId t' }, true)

/-- `WorkTracker.cancelTask`: rejects when already `completed` or
`cancelled`. -/
def cancelTask (wt : WorkTracker) (taskId : String) (now : Int) :
    WorkTracker × Bool :=
  match lookupA wt.tasks taskId with
  | none => (wt, false)
  | some task =>
    if task.status = .completed ∨ task.status = .cancelled then (wt, false)
    else
      let t' := { task with status := .cancelled, completedAt := some now }
      ({ wt with tasks := insertA wt.tasks taskId t' }, true)

/-- `WorkTracker.retryTask`: requires status `failed` or `timeout` and
`retryCount < maxRetries`; increments `retryCount`, clears the transient
fields and returns the task to `pending`. -/
def retryTask (wt : WorkTracker) (taskId : String) : WorkTracker × Bool :=
  match lookupA wt.tasks taskId with
  | none => (wt, false)
  | some task =>
    if task.status ≠ .failed ∧ task.status ≠ .timeout then (wt, false)
    else if task.retryCount ≥ task.maxRetries then (wt, false)
    else
      let t' := { task with
          retryCount := task.retryCount + 1
          status := .pending
          assignedTo := none
          assignedAt := none
          startedAt := none
          completedAt := none
          progressPercent := none
          statusLine := none
          result := none }
      ({ wt with tasks := insertA wt.tasks taskId t' }, true)

/-- Condition under which `WorkTracker.cleanup` removes a task: status
`completed`, `cancelled` or `failed`, and `completedAt ?? createdAt` older
than the cutoff. -/
def shouldCleanup (cutoff : Int) (task : TrackedTask) : Bool :=
  (task.status = .completed ∨ task.status = .cancelled ∨
    task.status = .failed) ∧ (task.completedAt.getD task.createdAt) < cutoff

/-- Remove one task id from one agent's (or workflow's) index set. -/
def removeFromIndex (m : List (String × List String)) (k taskId : String) :
    List (String × List String) :=
  m.map (fun p => if p.1 = k then (p.1, p.2.filter (fun x => x ≠ taskId)) else p)

/-- One iteration of the `cleanup` loop body for the entry `kv`. -/
def cleanupStep (cutoff : Int) (acc : WorkTracker × Nat)
    (kv : String × TrackedTask) : WorkTracker × Nat :=
  let w := acc.1
  let task := kv.2
  if shouldCleanup cutoff task then
    ({ tasks := eraseA w.tasks kv.1
       agentTaskIndex :=
         match task.assignedTo with
         | some a => removeFromIndex w.agentTaskIndex a.agentInstanceId kv.1
         | none => w.agentTaskIndex
       workflowTaskIndex :=
         match task.workflowPlanId with
         | some pid => removeFromIndex w.workflowTaskIndex pid kv.1
         | none => w.workflowTaskIndex
       stepIndex :=
         match task.workflowStepId with
         | some sid => eraseA w.stepIndex sid
         | none => w.stepIndex }, acc.2 + 1)
  else acc

/-- `WorkTracker.cleanup`: iterates the task map in insertion order, removes
each matching task and purges its index entries, and returns the number
removed. -/
def cleanup (wt : WorkTracker) (now maxAgeMs : Int) : WorkTracker × Nat :=
  wt.tasks.foldl (cleanupStep (now - maxAgeMs)) (wt, 0)

/-! ### Security Manager (`security.ts`) -/

/-- Security policy for one agent. Permission names are the string literals
of the `AgentPermission` union. -/
structure AgentSecurityPolicy where
  agentId : String
  permissions : List String
  networkAllowlist : List String
  maxConcurrentTasks : Nat
  maxMessagesPerMinute : Nat
  allowCrossGateway : Bool
deriving DecidableEq, Repr

/-- One audit-log record. -/
structure SecurityAuditEntry where
  timestamp : Int
  agentId : String
  action : String
  allowed : Bool
  reason : Option String := none
deriving DecidableEq, Repr

/-- State of one agent's rate-limit window. -/
structure RateEntry where
  count : Nat
  windowStart : Int
deriving DecidableEq, Repr

/-- Mutable state of `AgentSecurityManager` (the shared HMAC secret is kept
outside the state: `signMessage`/`verifySignature` are parameterised over the
MAC primitive, see `MacModel`). -/
structure SecState where
  policies : List (String × AgentSecurityPolicy)
  auditLog : List SecurityAuditEntry
  rateLimiter : List (String × RateEntry)
deriving DecidableEq, Repr

/-- An empty security manager state. -/
def SecState.empty : SecState :=
  { policies := [], auditLog := [], rateLimiter := [] }

/-- `getPolicy`: stored policy or the documented defaults. -/
def getPolicy (s : SecState) (agentId : String) : AgentSecurityPolicy :=
  (lookupA s.policies agentId).getD
    { agentId := agentId
      permissions := ["task.assign", "report.read", "config.read"]
      networkAllowlist := []
      maxConcurrentTasks := 8
      maxMessagesPerMinute := 120
      allowCrossGateway := false }

/-- `setPolicy`. -/
def setPolicy (s : SecState) (policy : AgentSecurityPolicy) : SecState :=
  { s with policies := insertA s.policies policy.agentId policy }

/-- Append an audit entry (`logAudit`). The over-capacity trim is deferred to
a microtask in the source and is not part of the synchronous call. -/
def logAudit (s : SecState) (entry : SecurityAuditEntry) : SecState :=
  { s with auditLog := s.auditLog ++ [entry] }

/-- `checkRateLimit`: lazily reset the 60 s window, increment the counter,
allow iff `count ≤ policy.maxMessagesPerMinute`, audit a denial. -/
def checkRateLimit (s : SecState) (agentId : String) (now : Int) :
    SecState × Bool :=
  let policy := getPolicy s agentId
  let windowMs : Int := 60000
  let entry :=
    match lookupA s.rateLimiter agentId with
    | some e => if now - e.windowStart > windowMs then
        ({ count := 0, windowStart := now } : RateEntry) else e
    | none => { count := 0, windowStart := now }
  let entry' : RateEntry := { entry with count := entry.count + 1 }
  let allowed := entry'.count ≤ policy.maxMessagesPerMinute
  let s1 := { s with rateLimiter := insertA s.rateLimiter agentId entry' }
  let s2 :=
    if allowed then s1
    else
      logAudit s1
        { timestamp := now, agentId := agentId,
          action := "rate-limit.exceeded", allowed := false,
          reason := some (toString entry'.count ++ "/" ++
            toString policy.maxMessagesPerMinute ++ " msgs/min") }
  (s2, allowed)

/-- Run a sequence of `checkRateLimit` calls for one agent at the given call
times. Each output records the returned `allowed` flag together with the
`windowStart` of the limiter entry left in the state by that call. -/
def runRateLimit (s : SecState) (agentId : String) :
    List Int → List (Bool × Int) × SecState
  | [] => ([], s)
  | t :: ts =>
    let r := checkRateLimit s agentId t
    let w := ((lookupA r.1.rateLimiter agentId).map
      (fun e => e.windowStart)).getD 0
    let rest := runRateLimit r.1 agentId ts
    ((r.2, w) :: rest.1, rest.2)

/-- Message direction union. -/
inductive MessageDirection where
  | request
  | response
  | broadcast
  | event
deriving DecidableEq, Repr

/-- Message envelope. `timestamp` is epoch milliseconds (the ISO-8601 string
of the source, after parsing). -/
structure MessageEnvelope where
  messageId : String
  correlationId : String
  timestamp : Int
  /-- The source field `from` (a Lean keyword, hence renamed). -/
  fromAgent : MultiAgentIdentity
  /-- The source field `to` (a reserved token, hence renamed). -/
  toAgent : Option MultiAgentIdentity := none
  direction : MessageDirection
  protocolVersion : String := "1.0"
  signature : Option String := none
  ttlSeconds : Option Int := none
  hopCount : Option Nat := none
deriving DecidableEq, Repr

/-- A payload, reduced to its `type` discriminator plus an opaque body (the
remaining JSON fields). -/
structure Payload where
  ptype : String
  body : String := ""
deriving DecidableEq, Repr

/-- A routed message. -/
structure MultiAgentMessage where
  envelope : MessageEnvelope
  payload : Payload
deriving DecidableEq, Repr

/-- Model of the external crypto collaborators of `signMessage` /
`verifySignature`: `serialize` stands for
`JSON.stringify({messageId, payload})` and `hmacSha256` for the
base64-encoded HMAC-SHA256 digest under the manager's shared secret. -/
structure MacModel where
  serialize : String → Payload → String
  hmacSha256 : String → String

/-- `signMessage`: MAC over the serialized `{messageId, payload}` pair. -/
def signMessage (m : MacModel) (envelope : MessageEnvelope)
    (payload : Payload) : String :=
  m.hmacSha256 (m.serialize envelope.messageId payload)

/-- `verifySignature`: false when the signature is absent; otherwise the
source compares the base64-decoded stored and expected digests with
`timingSafeEqual`, which (catching the length-mismatch throw) is equality of
the two digest strings. -/
def verifySignature (m : MacModel) (envelope : MessageEnvelope)
    (payload : Payload) : Bool :=
  match envelope.signature with
  | none => false
  | some sig => sig = signMessage m envelope payload

/-- `payloadToPermission`: map a payload type to the required permission. -/
def payloadToPermission (payloadType : String) : Option String :=
  if payloadType = "task.assign" then some "task.assign"
  else if payloadType = "role.assign" then some "role.assign"
  else if payloadType = "agent.discovery" then some "agent.register"
  else none

/-- Result of `authorizeMessage`. -/
structure AuthResult where
  allowed : Bool
  reason : Option String := none
deriving DecidableEq, Repr

/-- `authorizeMessage`: rate limit, then cross-gateway (in the source
`from.gatewayId !== to?.gatewayId`, which is `true` whenever `to` is absent
since a string never equals `undefined`), then signature if present, then
the payload-type permission. -/
def authorizeMessage (s : SecState) (m : MacModel)
    (message : MultiAgentMessage) (now : Int) : SecState × AuthResult :=
  let fromId := message.envelope.fromAgent.agentConfigId
  let policy := getPolicy s fromId
  let rl := checkRateLimit s fromId now
  if rl.2 = false then
    (rl.1, { allowed := false, reason := some "rate limit exceeded" })
  else
    let isCrossGateway : Bool :=
      match message.envelope.toAgent with
      | some t => message.envelope.fromAgent.gatewayId ≠ t.gatewayId
      | none => true
    if isCrossGateway ∧ policy.allowCrossGateway = false then
      (logAudit rl.1
        { timestamp := now, agentId := fromId,
          action := "cross-gateway.denied", allowed := false,
          reason := some "cross-gateway communication not allowed" },
       { allowed := false,
         reason := some "cross-gateway communication not allowed" })
    else if message.envelope.signature.isSome ∧
        ¬verifySignature m message.envelope message.payload then
      (logAudit rl.1
        { timestamp := now, agentId := fromId,
          action := "signature.invalid", allowed := false },
       { allowed := false, reason := some "invalid message signature" })
    else
      match payloadToPermission message.payload.ptype with
      | some p =>
        if p ∈ policy.permissions then (rl.1, { allowed := true })
        else (rl.1, { allowed := false,
                      reason := some ("missing permission: " ++ p) })
      | none => (rl.1, { allowed := true })

/-! ### Role Manager (`role-manager.ts`) -/

/-- Role definition (`AgentRole` in `protocol.ts`). -/
structure AgentRole where
  roleId : String
  name : String
  description : Option String := none
  systemPromptFragment : Option String := none
  allowedTools : Option (List String) := none
  deniedTools : Option (List String) := none
  maxConcurrent : Option Nat := none
  priority : Option Int := none
deriving DecidableEq, Repr

/-- A role assignment record. -/
structure RoleAssignment where
  agentInstanceId : String
  agentConfigId : String
  gatewayId : String
  role : AgentRole
  assignedAt : Int
  assignedBy : String
deriving DecidableEq, Repr

/-- `RoleManagerState`: role definitions keyed by `roleId`, assignments keyed
by `agentInstanceId`. -/
structure RoleManagerState where
  roles : List (String × AgentRole)
  assignments : List (String × RoleAssignment)
deriving DecidableEq, Repr

/-- `defineRole`: upsert. -/
def defineRole (s : RoleManagerState) (role : AgentRole) : RoleManagerState :=
  { s with roles := insertA s.roles role.roleId role }

/-- `removeRole`: delete the definition only. -/
def removeRole (s : RoleManagerState) (roleId : String) : RoleManagerState :=
  { s with roles := eraseA s.roles roleId }

/-- `countAgentsWithRole`. -/
def countAgentsWithRole (s : RoleManagerState) (roleId : String) : Nat :=
  s.assignments.countP (fun p => p.2.role.roleId = roleId)

/-- `getAgentsWithRole`. -/
def getAgentsWithRole (s : RoleManagerState) (roleId : String) :
    List RoleAssignment :=
  (s.assignments.map (fun p => p.2)).filter (fun a => a.role.roleId = roleId)

/-- `assignRole`: null when the role is missing, or when `maxConcurrent` is
set, the agent does not already hold the role, and the active count has
reached the quota; on success the agent's assignment is replaced. -/
def assignRole (s : RoleManagerState) (agent : MultiAgentIdentity)
    (roleId assignedBy : String) (now : Int) :
    RoleManagerState × Option RoleAssignment :=
  match lookupA s.roles roleId with
  | none => (s, none)
  | some role =>
    let blocked : Bool :=
      match role.maxConcurrent with
      | some k =>
        let activeCount := countAgentsWithRole s roleId
        let alreadyHasRole : Bool :=
          match lookupA s.assignments agent.agentInstanceId with
          | some cur => decide (cur.role.roleId = roleId)
          | none => false
        (!alreadyHasRole) && decide (activeCount ≥ k)
      | none => false
    if blocked then (s, none)
    else
      let assignment : RoleAssignment :=
        { agentInstanceId := agent.agentInstanceId
          agentConfigId := agent.agentConfigId
          gatewayId := agent.gatewayId
          role := role
          assignedAt := now
          assignedBy := assignedBy }
      ({ s with assignments :=
          insertA s.assignments agent.agentInstanceId assignment },
       some assignment)

/-- `unassignRole`. -/
def unassignRole (s : RoleManagerState) (agentInstanceId : String) :
    RoleManagerState × Bool :=
  let found := (lookupA s.assignments agentInstanceId).isSome
  ({ s with assignments := eraseA s.assignments agentInstanceId }, found)

/-- `exportState` snapshot. -/
structure RoleManagerExport where
  roles : List AgentRole
  assignments : List RoleAssignment
deriving DecidableEq, Repr

/-- `importState`: clear both maps, then re-`set` every exported record. -/
def importState (s : RoleManagerState) (data : RoleManagerExport) :
    RoleManagerState :=
  { s with
    roles := data.roles.foldl (fun m r => insertA m r.roleId r) []
    assignments :=
      data.assignments.foldl (fun m a => insertA m a.agentInstanceId a) [] }

/-- An operation of the Role Manager, for reachability statements. -/
inductive RoleOp where
  | defineR (role : AgentRole)
  | removeR (roleId : String)
  | assignR (agent : MultiAgentIdentity) (roleId assignedBy : String) (now : Int)
  | unassignR (agentInstanceId : String)
  | importR (data : RoleManagerExport)
deriving Repr

/-- Apply one Role Manager operation to the state. -/
def applyRoleOp (s : RoleManagerState) (op : RoleOp) : RoleManagerState :=
  match op with
  | .defineR role => defineRole s role
  | .removeR roleId => removeRole s roleId
  | .assignR agent roleId assignedBy now =>
      (assignRole s agent roleId assignedBy now).1
  | .unassignR iid => (unassignRole s iid).1
  | .importR data => importState s data

/-- Apply a sequence of Role Manager operations. -/
def applyRoleOps (s : RoleManagerState) (ops : List RoleOp) :
    RoleManagerState :=
  ops.foldl applyRoleOp s

/-- The concurrency-quota invariant of the spec: for every defined role with
`maxConcurrent = k`, at most `k` assignments reference that role. The
well-formedness conjuncts (role-map keys match `roleId`, assignment keys are
unique) hold for every state the manager itself builds. -/
def QuotaInv (s : RoleManagerState) : Prop :=
  (∀ p ∈ s.roles, p.2.roleId = p.1) ∧
  (s.roles.map (fun p => p.1)).Nodup ∧
  (s.assignments.map (fun p => p.1)).Nodup ∧
  (∀ p ∈ s.roles, ∀ k, p.2.maxConcurrent = some k →
    countAgentsWithRole s p.1 ≤ k)

/-! ### Message Router (`message-router.ts`) -/

/-- Peer gateway status. -/
inductive PeerStatus where
  | connected
  | connecting
  | disconnected
deriving DecidableEq, Repr

/-- A peer gateway record. -/
structure PeerGateway where
  gatewayId : String
  endpoint : String
  publicKey : Option String := none
  lastSeen : Int
  status : PeerStatus
deriving DecidableEq, Repr

/-- A subscription: the three optional filters plus an opaque handler,
modelled by an identifier (invoking a handler is recorded in the delivery
trace). -/
structure Subscription where
  payloadType : Option String := none
  fromAgentConfigId : Option String := none
  fromRoleId : Option String := none
  handlerId : Nat
deriving DecidableEq, Repr

/-- Router state. `seenMessages` is the bounded dedup set, a duplicate-free
list in insertion order (oldest first). -/
structure RouterState where
  localGatewayId : String
  subscriptions : List Subscription
  peerGateways : List (String × PeerGateway)
  localAgents : List (String × MultiAgentIdentity)
  seenMessages : List String
deriving DecidableEq, Repr

/-- The router's `maxSeenSize` bound. -/
def maxSeenSize : Nat := 10000

/-- `trackSeen`: add the id, then on overflow evict the oldest entries down
to 80% of the bound (`size - floor(maxSeenSize * 0.8)` evictions, in
insertion order). -/
def trackSeen (seen : List String) (messageId : String) : List String :=
  let s := addS seen messageId
  if s.length > maxSeenSize then
    s.drop (s.length - (maxSeenSize * 8 / 10))
  else s

/-- Does a subscription match a message (the three filter checks of
`deliverLocally`)? An omitted filter matches everything. -/
def subMatches (sub : Subscription) (message : MultiAgentMessage) : Bool :=
  (match sub.payloadType with
   | some t => decide (t = message.payload.ptype)
   | none => true) &&
  (match sub.fromAgentConfigId with
   | some c => decide (c = message.envelope.fromAgent.agentConfigId)
   | none => true) &&
  (match sub.fromRoleId with
   | some r => decide (message.envelope.fromAgent.roleId = some r)
   | none => true)

/-- `deliverLocally`: invoke every matching subscription's handler. The
returned trace lists the handler invocations. -/
def deliverLocally (subs : List Subscription) (message : MultiAgentMessage) :
    List (Nat × MultiAgentMessage) :=
  (subs.filter (fun sub => subMatches sub message)).map
    (fun sub => (sub.handlerId, message))

/-- `forwardToRemote`: clone the envelope with `hopCount + 1`, then call
`sendToPeer` for every connected peer, skipping peers other than the target
gateway when the message is target-specific. The returned trace lists the
`sendToPeer` calls as (peer gatewayId, forwarded message). -/
def forwardToRemote (st : RouterState) (message : MultiAgentMessage) :
    List (String × MultiAgentMessage) :=
  let bumped : MultiAgentMessage :=
    { message with envelope :=
        { message.envelope with
            hopCount := some ((message.envelope.hopCount.getD 0) + 1) } }
  (st.peerGateways.filter (fun p =>
      decide (p.2.status = PeerStatus.connected) &&
      (match bumped.envelope.toAgent with
       | some t => decide (t.gatewayId = p.2.gatewayId)
       | none => true))).map
    (fun p => (p.2.gatewayId, bumped))

/-- Result of one `route` call: the updated router state, the local handler
invocations and the peer forwards it performed. -/
structure RouteResult where
  state : RouterState
  deliveries : List (Nat × MultiAgentMessage)
  forwards : List (String × MultiAgentMessage)
deriving DecidableEq, Repr

/-- `route`: dedup, TTL, hop-count guard, then local delivery and/or remote
forwarding. The TTL comparison `(now − timestamp)/1000 > ttl` is written in
exact arithmetic as `now − timestamp > ttl * 1000`. -/
def route (st : RouterState) (message : MultiAgentMessage) (now : Int) :
    RouteResult :=
  let env := message.envelope
  if env.messageId ∈ st.seenMessages then
    { state := st, deliveries := [], forwards := [] }
  else
    let st1 := { st with seenMessages := trackSeen st.seenMessages env.messageId }
    let ttlExpired : Bool :=
      match env.ttlSeconds with
      | some ttl => now - env.timestamp > ttl * 1000
      | none => false
    if ttlExpired then { state := st1, deliveries := [], forwards := [] }
    else if env.hopCount.getD 0 ≥ 16 then
      { state := st1, deliveries := [], forwards := [] }
    else
      let isLocalTarget : Bool :=
        match env.toAgent with
        | none => true
        | some t => t.gatewayId = st1.localGatewayId
      let isRemoteTarget : Bool :=
        match env.toAgent with
        | none => false
        | some t => t.gatewayId ≠ st1.localGatewayId
      { state := st1
        deliveries :=
          if isLocalTarget ∨ env.direction = MessageDirection.broadcast then
            deliverLocally st1.subscriptions message
          else []
        forwards :=
          if isRemoteTarget ∨ env.direction = MessageDirection.broadcast then
            forwardToRemote st1 message
          else [] }

/-! ### Orchestrator (`orchestrator.ts`): agent selection and task submission -/

/-- The slice of orchestrator state that `selectAgent` and `submitTask`
consult: the router's local-agent map, the role manager, the heartbeat map
(`agentInstanceId` to the latest heartbeat's optional `load`), and the work
tracker. Loads are rationals in [0,1]. -/
structure OrchState where
  localAgents : List (String × MultiAgentIdentity)
  roleMgr : RoleManagerState
  heartbeats : List (String × Option Rat)
  tracker : WorkTracker
deriving Repr

/-- Load of an agent as `selectAgent` computes it: the latest heartbeat's
`load`, defaulting to 0 when there is no heartbeat or no load field. -/
def loadOf (st : OrchState) (agentInstanceId : String) : Rat :=
  (((lookupA st.heartbeats agentInstanceId).bind id).getD 0)

/-- Priority of an agent as `selectAgent` computes it: the assignment's role
priority, defaulting to 50. -/
def priorityOf (st : OrchState) (agentInstanceId : String) : Int :=
  (((lookupA st.roleMgr.assignments agentInstanceId).bind
      (fun a => a.role.priority)).getD 50)

/-- Comparator order of `selectAgent`'s sort: load ascending, then priority
descending ("a sorts no later than b"). -/
def lpLe (x y : MultiAgentIdentity × Rat × Int) : Bool :=
  decide (x.2.1 < y.2.1 ∨ (x.2.1 = y.2.1 ∧ y.2.2 ≤ x.2.2))

/-- Insert into a list sorted by `le` (the comparison step of a comparison
sort). -/
def insertLe {α : Type} (le : α → α → Bool) (x : α) : List α → List α
  | [] => [x]
  | y :: ys => if le x y then x :: y :: ys else y :: insertLe le x ys

/-- Insertion sort by `le`; models `Array.prototype.sort` with a consistent
comparator. -/
def isort {α : Type} (le : α → α → Bool) : List α → List α
  | [] => []
  | x :: xs => insertLe le x (isort le xs)

/-- `selectAgent`: direct target lookup, else role filtering, else sort the
candidates by load ascending / priority descending and take the first. -/
def selectAgent (st : OrchState) (targetRoleId : Option String)
    (targetAgentInstanceId : Option String) : Option MultiAgentIdentity :=
  let agents := st.localAgents.map (fun p => p.2)
  if agents.isEmpty then none
  else
    match targetAgentInstanceId with
    | some tid => agents.find? (fun a => a.agentInstanceId = tid)
    | none =>
      let candidates : List MultiAgentIdentity :=
        match targetRoleId with
        | some rid =>
          let assignedIds : List String :=
            (getAgentsWithRole st.roleMgr rid).map
              (fun (a : RoleAssignment) => a.agentInstanceId)
          agents.filter (fun a => a.agentInstanceId ∈ assignedIds)
        | none => agents
      if candidates.isEmpty then none
      else
        let withLoad := candidates.map (fun agent =>
          (agent, loadOf st agent.agentInstanceId,
           priorityOf st agent.agentInstanceId))
        ((isort lpLe withLoad).head?).map
          (fun (p : MultiAgentIdentity × Rat × Int) => p.1)

/-- Options of `submitTask` that matter to agent selection and task state. -/
structure SubmitTaskOpts where
  task : String
  requestedBy : Option MultiAgentIdentity := none
  targetRoleId : Option String := none
  targetAgentInstanceId : Option String := none
  priority : Option Int := none
  deadline : Option Int := none
  workflowStepId : Option String := none
  workflowPlanId : Option String := none
  tags : Option (List String) := none
deriving Repr

/-- `submitTask` (the tracker-facing part): create the task, select an
agent; with no agent the task is returned still `pending`, otherwise it is
assigned and started. `taskId` and `freshCorrelationId` stand for the
`randomUUID()` calls. The returned task is the tracked record after those
mutations. -/
def submitTask (st : OrchState) (opts : SubmitTaskOpts)
    (taskId freshCorrelationId : String) (now : Int) :
    OrchState × TrackedTask :=
  let created := createTask st.tracker
    { taskId := taskId
      correlationId := opts.workflowPlanId.getD freshCorrelationId
      task := opts.task
      requestedBy := opts.requestedBy
      workflowStepId := opts.workflowStepId
      workflowPlanId := opts.workflowPlanId
      priority := opts.priority
      deadline := opts.deadline
      tags := opts.tags } now
  match selectAgent st opts.targetRoleId opts.targetAgentInstanceId with
  | none => ({ st with tracker := created.1 }, created.2)
  | some agent =>
    let afterAssign := (assignTask created.1 taskId agent now).1
    let afterStart := (startTask afterAssign taskId now).1
    ({ st with tracker := afterStart },
     (lookupA afterStart.tasks taskId).getD created.2)

/-! ### Derived definitions and concrete instances used by the verification -/

/-- The candidate set `selectAgent` filters when a target role is given:
locally registered agents holding that role. -/
def roleCandidates (st : OrchState) (rid : String) :
    List MultiAgentIdentity :=
  (st.localAgents.map (fun p => p.2)).filter
    (fun a => a.agentInstanceId ∈
      (getAgentsWithRole st.roleMgr rid).map
        (fun (x : RoleAssignment) => x.agentInstanceId))

/-- Keys of the entries a `cleanup` pass over `l` removes. -/
def removedKeys (cutoff : Int) (l : List (String × TrackedTask)) :
    List String :=
  (l.filter (fun kv => shouldCleanup cutoff kv.2)).map (fun kv => kv.1)

/-- The task id is absent from one agent's (or plan's) index set. -/
def notInIndex (m : List (String × List String)) (aid tid : String) : Prop :=
  tid ∉ (lookupA m aid).getD []

/-- The three index entries of a removed task are purged: its id is absent
from its agent's set and its plan's set, and its step mapping is gone. -/
def IndexPurged (w : WorkTracker) (t : TrackedTask) (k : String) : Prop :=
  (∀ ag, t.assignedTo = some ag →
    notInIndex w.agentTaskIndex ag.agentInstanceId k) ∧
  (∀ pid, t.workflowPlanId = some pid →
    notInIndex w.workflowTaskIndex pid k) ∧
  (∀ sid, t.workflowStepId = some sid → lookupA w.stepIndex sid = none)

/-- Role Manager operations that do not rewrite state wholesale: everything
except `defineRole` and `importState`. -/
def QuotaSafeOp : RoleOp → Prop
  | RoleOp.defineR _ => False
  | RoleOp.importR _ => False
  | _ => True

/-- A concrete task record used to instantiate witnesses. -/
def demoTask (st : TaskStatus) : TrackedTask :=
  { taskId := "t1"
    correlationId := "c1"
    task := "demo"
    status := st
    priority := 50
    createdAt := 0
    retryCount := 0
    maxRetries := 2
    tags := [] }

/-- A one-task tracker used to instantiate witnesses concretely. -/
def demoTracker (st : TaskStatus) : WorkTracker :=
  { WorkTracker.empty with tasks := [("t1", demoTask st)] }

/-- A concrete broadcast heartbeat message, used by witnesses. -/
def demoMessage (mid : String) (hop : Option Nat) : MultiAgentMessage :=
  { envelope :=
      { messageId := mid
        correlationId := "c1"
        timestamp := 0
        fromAgent :=
          { agentInstanceId := "a"
            agentConfigId := "a"
            gatewayId := "gw-1" }
        direction := MessageDirection.broadcast
        hopCount := hop }
    payload := { ptype := "heartbeat" } }

/-- A concrete router with one catch-all subscription and one connected
peer, used by witnesses. -/
def demoRouter : RouterState :=
  { localGatewayId := "gw-1"
    subscriptions := [{ handlerId := 0 }]
    peerGateways := [("gw-2",
      { gatewayId := "gw-2"
        endpoint := "wss://peer"
        lastSeen := 0
        status := PeerStatus.connected })]
    localAgents := []
    seenMessages := [] }

/-- A security manager holding one policy with `maxMessagesPerMinute = 2`
for agent "a". -/
def demoRateState : SecState :=
  setPolicy SecState.empty
    { agentId := "a"
      permissions := []
      networkAllowlist := []
      maxConcurrentTasks := 1
      maxMessagesPerMinute := 2
      allowCrossGateway := false }

/-- A role definition mirroring the built-in monitor role (quota 1). -/
def demoMonitorRole : AgentRole :=
  { roleId := "monitor"
    name := "Monitor"
    maxConcurrent := some 1
    priority := some 80 }

/-- A role manager holding only the monitor role and no assignments. -/
def demoRoleState : RoleManagerState :=
  { roles := [("monitor", demoMonitorRole)]
    assignments := [] }

/-- Two concrete agents on one gateway. -/
def demoAgent (iid : String) : MultiAgentIdentity :=
  { agentInstanceId := iid
    agentConfigId := "cfg"
    gatewayId := "gw-1" }

/-- A monitor assignment record for one agent instance. -/
def demoAssignmentOf (iid : String) : RoleAssignment :=
  { agentInstanceId := iid
    agentConfigId := "cfg"
    gatewayId := "gw-1"
    role := demoMonitorRole
    assignedAt := 0
    assignedBy := "admin" }

/-- The coder role used in the selection witness. -/
def demoCoderRole : AgentRole :=
  { roleId := "coder", name := "Coder", priority := some 60 }

/-- A coder assignment record for one agent instance. -/
def demoCoderAssignment (iid : String) : RoleAssignment :=
  { agentInstanceId := iid
    agentConfigId := "cfg"
    gatewayId := "gw-1"
    role := demoCoderRole
    assignedAt := 0
    assignedBy := "admin" }

/-- A concrete orchestrator state: two agents holding the coder role with
loads 1 and 0. -/
def demoOrchState : OrchState :=
  { localAgents := [("a1", demoAgent "a1"), ("a2", demoAgent "a2")]
    roleMgr :=
      { roles := [("coder", demoCoderRole)]
        assignments := [("a1", demoCoderAssignment "a1"),
          ("a2", demoCoderAssignment "a2")] }
    heartbeats := [("a1", some (1 : Rat)), ("a2", some (0 : Rat))]
    tracker := WorkTracker.empty }

/-! ### Association-list lemmas -/

theorem find?_map_replace {α : Type} (m : List (String × α)) (k : String)
    (v : α) :
    (m.map (fun p => if p.1 = k then (k, v) else p)).find?
        (fun p => p.1 = k) =
      (m.find? (fun p => p.1 = k)).map (fun _ => (k, v)) := by
  induction m with
  | nil => rfl
  | cons p rest ih =>
    rw [List.map_cons]
    by_cases hp : p.1 = k
    · rw [if_pos hp, List.find?_cons_of_pos _ (by simp),
        List.find?_cons_of_pos _ (by simpa using hp)]
      rfl
    · rw [if_neg hp, List.find?_cons_of_neg _ (by simpa using hp),
        List.find?_cons_of_neg _ (by simpa using hp), ih]

theorem find?_map_replace_ne {α : Type} (m : List (String × α))
    (k k' : String) (v : α) (hkk : k' ≠ k) :
    (m.map (fun p => if p.1 = k then (k, v) else p)).find?
        (fun p => p.1 = k') =
      m.find? (fun p => p.1 = k') := by
  induction m with
  | nil => rfl
  | cons p rest ih =>
    rw [List.map_cons]
    by_cases hp : p.1 = k
    · have h1 : ¬(p.1 = k') := fun h => hkk (hp ▸ h).symm
      have h2 : ¬((k, v).1 = k') := fun h => hkk h.symm
      rw [if_pos hp, List.find?_cons_of_neg _ (by simpa using h2),
        List.find?_cons_of_neg _ (by simpa using h1), ih]
    · by_cases hp' : p.1 = k'
      · rw [if_neg hp, List.find?_cons_of_pos _ (by simpa using hp'),
          List.find?_cons_of_pos _ (by simpa using hp')]
      · rw [if_neg hp, List.find?_cons_of_neg _ (by simpa using hp'),
          List.find?_cons_of_neg _ (by simpa using hp'), ih]

theorem lookupA_insertA_self {α : Type} (m : List (String × α)) (k : String)
    (v : α) : lookupA (insertA m k v) k = some v := by
  unfold insertA
  by_cases h : (m.find? (fun p => p.1 = k)).isSome
  · rw [if_pos h]
    unfold lookupA
    rw [find?_map_replace]
    rcases Option.isSome_iff_exists.mp h with ⟨p, hp⟩
    rw [hp]
    rfl
  · rw [if_neg h]
    unfold lookupA
    rw [List.find?_append]
    rw [Option.not_isSome_iff_eq_none.mp h]
    simp [List.find?]

theorem lookupA_insertA_ne {α : Type} (m : List (String × α)) (k k' : String)
    (v : α) (hkk : k' ≠ k) :
    lookupA (insertA m k v) k' = lookupA m k' := by
  unfold insertA
  by_cases h : (m.find? (fun p => p.1 = k)).isSome
  · rw [if_pos h]
    unfold lookupA
    rw [find?_map_replace_ne _ _ _ _ hkk]
  · rw [if_neg h]
    unfold lookupA
    rw [List.find?_append]
    have h2 : List.find? (fun p => decide (p.1 = k'))
        ([(k, v)] : List (String × α)) = none := by
      rw [List.find?_cons_of_neg _ (by simpa using fun h => hkk h.symm)]
      rfl
    rw [h2, Option.or_none]

theorem find?_filter_erase_ne {α : Type} (m : List (String × α))
    (k k' : String) (hkk : k' ≠ k) :
    (m.filter (fun p => decide (p.1 ≠ k))).find? (fun p => decide (p.1 = k'))
      = m.find? (fun p => decide (p.1 = k')) := by
  induction m with
  | nil => rfl
  | cons p rest ih =>
    by_cases hp : p.1 = k
    · have h1 : ¬(p.1 = k') := fun h => hkk (hp ▸ h).symm
      rw [List.filter_cons_of_neg (by simpa using hp),
        List.find?_cons_of_neg _ (by simpa using h1), ih]
    · by_cases hp' : p.1 = k'
      · rw [List.filter_cons_of_pos (by simpa using hp),
          List.find?_cons_of_pos _ (by simpa using hp'),
          List.find?_cons_of_pos _ (by simpa using hp')]
      · rw [List.filter_cons_of_pos (by simpa using hp),
          List.find?_cons_of_neg _ (by simpa using hp'),
          List.find?_cons_of_neg _ (by simpa using hp'), ih]

theorem lookupA_eraseA_self {α : Type} (m : List (String × α)) (k : String) :
    lookupA (eraseA m k) k = none := by
  unfold lookupA eraseA
  have h : List.find? (fun p => decide (p.1 = k))
      (m.filter (fun p => decide (p.1 ≠ k))) = none := by
    rw [List.find?_eq_none]
    intro p hp
    have hmem := List.of_mem_filter hp
    simp only [decide_eq_true_eq] at hmem ⊢
    exact hmem
  rw [h]
  rfl

theorem lookupA_eraseA_ne {α : Type} (m : List (String × α)) (k k' : String)
    (hkk : k' ≠ k) : lookupA (eraseA m k) k' = lookupA m k' := by
  unfold lookupA eraseA
  rw [find?_filter_erase_ne _ _ _ hkk]

/-! ### Claim C8: retryTask contract -/

/-- C8: `retryTask(taskId)` returns true if and only if the task exists, its
status is `failed` or `timeout`, and `retryCount < maxRetries`; on success it
increments `retryCount`, clears `assignedTo`, `assignedAt`, `startedAt`,
`completedAt`, `progressPercent`, `statusLine` and `result`, and sets the
status to `pending`; on failure the tracker is unchanged. -/
theorem c8_retry_task (wt : WorkTracker) (taskId : String) (t : TrackedTask)
    (h : lookupA wt.tasks taskId = some t) :
    (((retryTask wt taskId).2 = true) ↔
      ((t.status = .failed ∨ t.status = .timeout) ∧
        t.retryCount < t.maxRetries)) ∧
    ((retryTask wt taskId).2 = true →
      lookupA (retryTask wt taskId).1.tasks taskId = some
        { t with
          retryCount := t.retryCount + 1,
          status := TaskStatus.pending,
          assignedTo := none, assignedAt := none, startedAt := none,
          completedAt := none, progressPercent := none, statusLine := none,
          result := none }) ∧
    ((retryTask wt taskId).2 = false → (retryTask wt taskId).1 = wt) := by
  simp only [retryTask, h]
  split_ifs with h1 h2
  · refine ⟨?_, ?_, fun _ => rfl⟩
    · simp only [false_iff]
      rintro ⟨hst | hst, _⟩ <;> simp [hst] at h1
    · simp
  · refine ⟨?_, ?_, fun _ => rfl⟩
    · simp only [false_iff]
      rintro ⟨_, hlt⟩
      omega
    · simp
  · refine ⟨?_, fun _ => ?_, ?_⟩
    · simp only [true_iff]
      constructor
      · by_cases hf : t.status = TaskStatus.failed
        · exact Or.inl hf
        · by_cases ht : t.status = TaskStatus.timeout
          · exact Or.inr ht
          · exact absurd ⟨hf, ht⟩ h1
      · omega
    · exact lookupA_insertA_self _ _ _
    · simp

/-- Witness for `c8_retry_task` at a concrete failed task with one retry
left. -/
theorem c8_retry_task_witness :
    (retryTask (demoTracker TaskStatus.failed) "t1").2 = true :=
  ((c8_retry_task (demoTracker TaskStatus.failed) "t1" _ rfl).1).mpr
    (by decide)

/-! ### Claim C1: task state machine and terminal statuses -/

/-- C1 counterexample: the claim "once a task's status is `completed` or
`cancelled`, no operation changes its status again" is false — after
`cancelTask`, a `completeTask` call with a success result moves the task
from `cancelled` to `completed`, because `completeTask` has no guard on the
current status. -/
theorem c1_counterexample :
    ((lookupA ((cancelTask
        (createTask WorkTracker.empty
          { taskId := "t1", correlationId := "c1", task := "demo" } 0).1
        "t1" 5).1).tasks "t1").map (fun t => t.status) =
      some TaskStatus.cancelled) ∧
    ((lookupA ((completeTask
        ((cancelTask
          (createTask WorkTracker.empty
            { taskId := "t1", correlationId := "c1", task := "demo" } 0).1
          "t1" 5).1)
        "t1" { status := ResultStatus.success } 10).1).tasks "t1").map
          (fun t => t.status) =
      some TaskStatus.completed) := by
  exact ⟨rfl, rfl⟩

/-- C1 (amended): once a task's status is `completed` or `cancelled`, the
operations `assignTask`, `startTask`, `cancelTask` and `retryTask` leave the
tracker unchanged and return false; `completeTask`, however, has no guard on
the current status and still overwrites a terminal task, setting its status
to the image of `result.status` (success/partial go to `completed`, timeout
to `timeout`, failure to `failed`). -/
theorem c1_terminal_freeze (wt : WorkTracker) (taskId : String)
    (t : TrackedTask) (agent : MultiAgentIdentity) (now : Int)
    (r : TaskResultPayload)
    (h : lookupA wt.tasks taskId = some t)
    (hterm : t.status = .completed ∨ t.status = .cancelled) :
    assignTask wt taskId agent now = (wt, false) ∧
    startTask wt taskId now = (wt, false) ∧
    cancelTask wt taskId now = (wt, false) ∧
    retryTask wt taskId = (wt, false) ∧
    (completeTask wt taskId r now).2 = true ∧
    (lookupA (completeTask wt taskId r now).1.tasks taskId).map
      (fun u => u.status) = some (resultToTaskStatus r.status) := by
  have hcomp : (lookupA (completeTask wt taskId r now).1.tasks taskId).map
      (fun u => u.status) = some (resultToTaskStatus r.status) := by
    simp only [completeTask, h]
    rw [lookupA_insertA_self]
    rfl
  rcases hterm with hc | hc <;>
    refine ⟨?_, ?_, ?_, ?_, ?_, hcomp⟩ <;>
    simp [assignTask, startTask, cancelTask, retryTask, completeTask, h, hc]

/-- Witness for `c1_terminal_freeze` at a concrete completed task. -/
theorem c1_terminal_freeze_witness :
    cancelTask (demoTracker TaskStatus.completed) "t1" 7 =
      (demoTracker TaskStatus.completed, false) :=
  (c1_terminal_freeze (demoTracker TaskStatus.completed) "t1" _
    { agentInstanceId := "a", agentConfigId := "a", gatewayId := "g" } 7
    { status := ResultStatus.success } rfl (Or.inl rfl)).2.2.1

/-! ### Claims C5 and C6: router dedup and hop-count guard -/

/-- A `route` call on a message whose id is already in the dedup set is a
no-op: nothing is delivered, nothing is forwarded, the state is unchanged. -/
theorem route_seen_noop (st : RouterState) (message : MultiAgentMessage)
    (now : Int) (h : message.envelope.messageId ∈ st.seenMessages) :
    route st message now = { state := st, deliveries := [], forwards := [] } := by
  unfold route
  rw [if_pos h]

/-- After a `route` call on a dedup set that is not yet full, the message id
is in the dedup set, whatever else the call did. -/
theorem route_mem_seen (st : RouterState) (message : MultiAgentMessage)
    (now : Int) (hlen : st.seenMessages.length < maxSeenSize) :
    message.envelope.messageId ∈ (route st message now).state.seenMessages := by
  unfold route
  by_cases hseen : message.envelope.messageId ∈ st.seenMessages
  · rw [if_pos hseen]
    exact hseen
  · rw [if_neg hseen]
    have hmem : message.envelope.messageId ∈
        trackSeen st.seenMessages message.envelope.messageId := by
      unfold trackSeen addS
      rw [if_neg hseen]
      have hlt : ¬((st.seenMessages ++ [message.envelope.messageId]).length >
          maxSeenSize) := by
        rw [List.length_append]
        simp only [List.length_singleton]
        omega
      rw [if_neg hlt]
      exact List.mem_append_right _ (List.mem_singleton.mpr rfl)
    dsimp only
    split_ifs <;> exact hmem

/-- C5: routing the same message a second time while its `messageId` is
still in the dedup set delivers to no local subscription handler and
forwards to no peer. Starting below the dedup capacity, the second of two
consecutive `route` calls on the same message (at any two times) neither
delivers locally nor forwards. -/
theorem c5_dedup (st : RouterState) (message : MultiAgentMessage)
    (now1 now2 : Int) (hlen : st.seenMessages.length < maxSeenSize) :
    (route (route st message now1).state message now2).deliveries = [] ∧
    (route (route st message now1).state message now2).forwards = [] := by
  rw [route_seen_noop _ _ _ (route_mem_seen st message now1 hlen)]
  exact ⟨rfl, rfl⟩

/-- Witness for `c5_dedup`: a concrete broadcast heartbeat routed twice
delivers and forwards nothing on the second call. -/
theorem c5_dedup_witness :
    (route (route demoRouter (demoMessage "m1" none) 0).state
      (demoMessage "m1" none) 1).deliveries = [] :=
  (c5_dedup demoRouter (demoMessage "m1" none) 0 1
    (by simp [demoRouter, maxSeenSize])).1

/-- C6: a message entering `route` with `hopCount ≥ 16` is never forwarded:
no `sendToPeer` call happens for any peer, regardless of direction or
targeting. -/
theorem c6_hop_guard (st : RouterState) (message : MultiAgentMessage)
    (now : Int) (n : Nat) (hhop : message.envelope.hopCount = some n)
    (h16 : 16 ≤ n) :
    (route st message now).forwards = [] := by
  have hge : message.envelope.hopCount.getD 0 ≥ 16 := by
    rw [hhop]
    simpa using h16
  unfold route
  by_cases hseen : message.envelope.messageId ∈ st.seenMessages
  · rw [if_pos hseen]
  · rw [if_neg hseen]
    dsimp only
    rw [if_pos hge]
    split_ifs with httl
    · rfl
    · rfl

/-- Witness for `c6_hop_guard`: a concrete broadcast with `hopCount = 16`
and a connected peer produces no forwards. -/
theorem c6_hop_guard_witness :
    (route demoRouter (demoMessage "m2" (some 16)) 0).forwards = [] :=
  c6_hop_guard demoRouter (demoMessage "m2" (some 16)) 0 16 rfl (by omega)

/-! ### Claim C7: HMAC signing round-trip and tamper detection -/

/-- C7: verifying an envelope that carries the signature produced by
`signMessage` over the same messageId and payload succeeds; and verification
fails for a different messageId or payload as long as the MAC digests of the
two serialized `{messageId, payload}` pairs differ (which is what
HMAC-SHA256 over an injective JSON serialization provides on distinct
inputs). -/
theorem c7_signature (m : MacModel) (e e' : MessageEnvelope) (p p' : Payload)
    (hsig : e'.signature = some (signMessage m e p))
    (_hdiff : e'.messageId ≠ e.messageId ∨ p' ≠ p)
    (hcol : m.hmacSha256 (m.serialize e'.messageId p') ≠
      m.hmacSha256 (m.serialize e.messageId p)) :
    verifySignature m { e with signature := some (signMessage m e p) } p
      = true ∧
    verifySignature m e' p' = false := by
  constructor
  · simp [verifySignature, signMessage]
  · simp only [verifySignature, hsig, signMessage]
    simpa using fun h => absurd h.symm hcol

/-- Witness for `c7_signature`: a concrete MAC model (identity digest over
a length-prefixed serialization), a heartbeat payload, and a tampered
payload. -/
theorem c7_signature_witness :
    verifySignature
        { serialize := fun mid p => toString mid.length ++ ":" ++ mid ++
            p.ptype ++ p.body
          hmacSha256 := fun s => s }
        { messageId := "m1"
          correlationId := "c1"
          timestamp := 0
          fromAgent :=
            { agentInstanceId := "a"
              agentConfigId := "a"
              gatewayId := "gw-1" }
          direction := MessageDirection.request
          signature := some (signMessage
            { serialize := fun mid p => toString mid.length ++ ":" ++ mid ++
                p.ptype ++ p.body
              hmacSha256 := fun s => s }
            { messageId := "m1"
              correlationId := "c1"
              timestamp := 0
              fromAgent :=
                { agentInstanceId := "a"
                  agentConfigId := "a"
                  gatewayId := "gw-1" }
              direction := MessageDirection.request }
            { ptype := "heartbeat" }) }
        { ptype := "task.assign", body := "malicious" } = false := by
  refine (c7_signature _
    { messageId := "m1"
      correlationId := "c1"
      timestamp := 0
      fromAgent :=
        { agentInstanceId := "a"
          agentConfigId := "a"
          gatewayId := "gw-1" }
      direction := MessageDirection.request }
    _ { ptype := "heartbeat" } _ rfl (Or.inr (by decide)) (by decide)).2

/-! ### Claim C10: broadcasts are classified as cross-gateway -/

/-- C10: a message whose envelope has no `to` field is classified as
cross-gateway by `authorizeMessage` (in the source
`from.gatewayId !== to?.gatewayId` is true whenever `to` is `undefined`),
so whenever the sender's policy has `allowCrossGateway = false` and the
rate-limit check passes, the message is denied with reason "cross-gateway
communication not allowed" — even though sender and delivery gateway may be
the same. -/
theorem c10_broadcast_cross_gateway (s : SecState) (m : MacModel)
    (message : MultiAgentMessage) (now : Int)
    (hbroadcast : message.envelope.toAgent = none)
    (hpolicy : (getPolicy s
      message.envelope.fromAgent.agentConfigId).allowCrossGateway = false)
    (hrl : (checkRateLimit s
      message.envelope.fromAgent.agentConfigId now).2 = true) :
    (authorizeMessage s m message now).2 =
      { allowed := false,
        reason := some "cross-gateway communication not allowed" } := by
  unfold authorizeMessage
  dsimp only
  rw [hbroadcast]
  rw [if_neg (by rw [hrl]; simp)]
  rw [if_pos (by rw [hpolicy]; simp)]

/-- Witness for `c10_broadcast_cross_gateway`: a fresh security manager
denies a same-gateway broadcast heartbeat for being cross-gateway, since
the default policy disallows cross-gateway traffic. -/
theorem c10_broadcast_cross_gateway_witness :
    (authorizeMessage SecState.empty
      { serialize := fun mid p => mid ++ p.ptype ++ p.body
        hmacSha256 := fun s => s }
      (demoMessage "m3" none) 0).2 =
      { allowed := false,
        reason := some "cross-gateway communication not allowed" } :=
  c10_broadcast_cross_gateway SecState.empty _ (demoMessage "m3" none) 0
    rfl rfl rfl

/-! ### Claim C3: rate limiting -/

/-- `getPolicy` reads only the `policies` component. -/
theorem getPolicy_congr (s1 s2 : SecState) (a : String)
    (h : s1.policies = s2.policies) : getPolicy s1 a = getPolicy s2 a := by
  unfold getPolicy
  rw [h]

/-- Characterization of one `checkRateLimit` call: there is a base counter
`c0` and window start `ws0` (the kept or reset window) such that the call
returns `c0 + 1 ≤ limit`, stores the entry `(c0 + 1, ws0)`, leaves the
policies untouched, and appends one `rate-limit.exceeded` audit entry
exactly on denial. -/
theorem checkRateLimit_spec (s : SecState) (a : String) (t : Int) :
    ∃ c0 ws0,
      ((lookupA s.rateLimiter a = none ∧ c0 = 0 ∧ ws0 = t) ∨
       (∃ e, lookupA s.rateLimiter a = some e ∧
         ((t - e.windowStart > 60000 ∧ c0 = 0 ∧ ws0 = t) ∨
          (¬(t - e.windowStart > 60000) ∧ c0 = e.count ∧
            ws0 = e.windowStart)))) ∧
      (checkRateLimit s a t).2 =
        decide (c0 + 1 ≤ (getPolicy s a).maxMessagesPerMinute) ∧
      lookupA (checkRateLimit s a t).1.rateLimiter a =
        some { count := c0 + 1, windowStart := ws0 } ∧
      (checkRateLimit s a t).1.policies = s.policies ∧
      ((checkRateLimit s a t).2 = true →
        (checkRateLimit s a t).1.auditLog = s.auditLog) ∧
      ((checkRateLimit s a t).2 = false → ∃ r,
        (checkRateLimit s a t).1.auditLog = s.auditLog ++
          [{ timestamp := t, agentId := a, action := "rate-limit.exceeded",
             allowed := false, reason := some r }]) := by
  rcases hopt : lookupA s.rateLimiter a with _ | e
  · refine ⟨0, t, Or.inl ⟨rfl, rfl, rfl⟩, ?_, ?_, ?_, ?_, ?_⟩ <;>
      simp only [checkRateLimit, hopt, logAudit] <;>
      split_ifs with hallow <;>
      simp [hallow, lookupA_insertA_self]
  · by_cases hreset : t - e.windowStart > 60000
    · refine ⟨0, t, Or.inr ⟨e, rfl, Or.inl ⟨hreset, rfl, rfl⟩⟩,
        ?_, ?_, ?_, ?_, ?_⟩ <;>
        simp only [checkRateLimit, hopt, logAudit, if_pos hreset] <;>
        split_ifs with hallow <;>
        simp [hallow, lookupA_insertA_self]
    · refine ⟨e.count, e.windowStart,
        Or.inr ⟨e, rfl, Or.inr ⟨hreset, rfl, rfl⟩⟩, ?_, ?_, ?_, ?_, ?_⟩ <;>
        simp only [checkRateLimit, hopt, logAudit, if_neg hreset] <;>
        split_ifs with hallow <;>
        simp [hallow, lookupA_insertA_self]

/-- Window bound for a run of `checkRateLimit` calls: every output's
recorded window start is at least the current entry's window start, and for
each window-start value `W`, the number of allowed calls recorded against
`W` stays within the remaining quota of the current window (`L - c` for the
current window, `L` for any window still to be opened). -/
theorem runRL_window_bound (a : String) (L : Nat) (ts : List Int) :
    ∀ (s : SecState),
    (getPolicy s a).maxMessagesPerMinute = L →
    (∀ p ∈ (runRateLimit s a ts).1, ∀ e,
        lookupA s.rateLimiter a = some e → e.windowStart ≤ p.2) ∧
    (∀ W : Int, ((runRateLimit s a ts).1.countP
        (fun p => p.1 && decide (p.2 = W))) ≤
      (match lookupA s.rateLimiter a with
       | some e => if W = e.windowStart then L - e.count else L
       | none => L)) := by
  induction ts with
  | nil =>
    intro s _
    refine ⟨by simp [runRateLimit], ?_⟩
    intro W
    simp only [runRateLimit, List.countP_nil]
    exact Nat.zero_le _
  | cons t ts ih =>
    intro s hL
    obtain ⟨c0, ws0, hbase, hret, hlook, hpol, -, -⟩ :=
      checkRateLimit_spec s a t
    have hL' : (getPolicy (checkRateLimit s a t).1 a).maxMessagesPerMinute
        = L := by
      rw [getPolicy_congr _ s a hpol, hL]
    obtain ⟨ihMono, ihCount⟩ := ih (checkRateLimit s a t).1 hL'
    have hrun : runRateLimit s a (t :: ts) =
        (((checkRateLimit s a t).2, ws0) ::
            (runRateLimit (checkRateLimit s a t).1 a ts).1,
          (runRateLimit (checkRateLimit s a t).1 a ts).2) := by
      simp only [runRateLimit, hlook]
      rfl
    have ihMono' : ∀ p ∈ (runRateLimit (checkRateLimit s a t).1 a ts).1,
        ws0 ≤ p.2 := by
      intro p hp
      exact ihMono p hp { count := c0 + 1, windowStart := ws0 } hlook
    have ihCount' : ∀ W : Int,
        ((runRateLimit (checkRateLimit s a t).1 a ts).1.countP
          (fun p => p.1 && decide (p.2 = W))) ≤
        (if W = ws0 then L - (c0 + 1) else L) := by
      intro W
      have h := ihCount W
      rw [hlook] at h
      exact h
    constructor
    · intro p hp e he
      have hws0 : e.windowStart ≤ ws0 := by
        rcases hbase with ⟨hnone, -, -⟩ | ⟨e', he', hcase⟩
        · rw [he] at hnone
          cases hnone
        · rw [he] at he'
          have hee : e = e' := Option.some.inj he'
          rcases hcase with ⟨hgt, -, hws⟩ | ⟨-, -, hws⟩
          · subst hws
            rw [hee]
            omega
          · subst hws
            rw [hee]
      rw [hrun] at hp
      rcases List.mem_cons.mp hp with hhd | htl
      · rw [hhd]
        exact hws0
      · exact le_trans hws0 (ihMono' p htl)
    · intro W
      rw [hrun]
      simp only [List.countP_cons]
      have hhead1 : (((checkRateLimit s a t).2 &&
          decide ((ws0 : Int) = W)) = true) →
          c0 + 1 ≤ L ∧ ws0 = W := by
        intro hhead
        rw [hret] at hhead
        have hand := (Bool.and_eq_true _ _).mp hhead
        exact ⟨hL ▸ of_decide_eq_true hand.1, of_decide_eq_true hand.2⟩
      rcases hbase with ⟨hnone, hc, hws⟩ | ⟨e', he', hcase⟩
      · have hm : (match lookupA s.rateLimiter a with
            | some e => if W = e.windowStart then L - e.count else L
            | none => L) = L := by rw [hnone]
        rw [hm]
        by_cases hhead : (((checkRateLimit s a t).2 &&
            decide ((ws0 : Int) = W)) = true)
        · obtain ⟨hc1, hWws⟩ := hhead1 hhead
          have hF := ihCount' W
          rw [if_pos hWws.symm] at hF
          rw [if_pos hhead]
          omega
        · have hF := ihCount' W
          rw [if_neg hhead]
          by_cases hW : W = ws0
          · rw [if_pos hW] at hF
            omega
          · rw [if_neg hW] at hF
            omega
      · have hm : (match lookupA s.rateLimiter a with
            | some e => if W = e.windowStart then L - e.count else L
            | none => L) =
            if W = e'.windowStart then L - e'.count else L := by rw [he']
        rw [hm]
        rcases hcase with ⟨hgt, hc, hws⟩ | ⟨hgt, hc, hws⟩
        · by_cases hW : W = e'.windowStart
          · have hWne : W ≠ ws0 := by
              subst hws hW
              omega
            have hhead : ¬(((checkRateLimit s a t).2 &&
                decide ((ws0 : Int) = W)) = true) := by
              intro hhead
              exact hWne (hhead1 hhead).2.symm
            have hzero : ((runRateLimit (checkRateLimit s a t).1 a
                ts).1.countP (fun p => p.1 && decide (p.2 = W))) = 0 := by
              rw [List.countP_eq_zero]
              intro p hp
              have hmono := ihMono' p hp
              subst hws hW
              simp only [Bool.and_eq_true, decide_eq_true_eq]
              rintro ⟨-, hpw⟩
              omega
            rw [hzero, if_neg hhead]
            exact Nat.zero_le _
          · rw [if_neg hW]
            by_cases hhead : (((checkRateLimit s a t).2 &&
                decide ((ws0 : Int) = W)) = true)
            · obtain ⟨hc1, hWws⟩ := hhead1 hhead
              have hF := ihCount' W
              rw [if_pos hWws.symm] at hF
              rw [if_pos hhead]
              omega
            · have hF := ihCount' W
              rw [if_neg hhead]
              by_cases hW0 : W = ws0
              · rw [if_pos hW0] at hF
                omega
              · rw [if_neg hW0] at hF
                omega
        · subst hws hc
          by_cases hW : W = e'.windowStart
          · rw [if_pos hW]
            have hF := ihCount' W
            rw [if_pos hW] at hF
            by_cases hhead : (((checkRateLimit s a t).2 &&
                decide ((e'.windowStart : Int) = W)) = true)
            · obtain ⟨hc1, -⟩ := hhead1 hhead
              rw [if_pos hhead]
              omega
            · rw [if_neg hhead]
              omega
          · rw [if_neg hW]
            have hF := ihCount' W
            rw [if_neg hW] at hF
            have hhead : ¬(((checkRateLimit s a t).2 &&
                decide ((e'.windowStart : Int) = W)) = true) := by
              intro hhead
              exact hW (hhead1 hhead).2.symm
            rw [if_neg hhead]
            omega

/-- Audit behaviour of a run of `checkRateLimit` calls: the audit log grows
by exactly one entry per denied call, and every new entry has action
`rate-limit.exceeded`. -/
theorem runRL_audit (a : String) (ts : List Int) :
    ∀ s : SecState,
    (runRateLimit s a ts).2.auditLog.length =
      s.auditLog.length +
        (runRateLimit s a ts).1.countP (fun p => !p.1) ∧
    (∀ e ∈ (runRateLimit s a ts).2.auditLog,
      e ∈ s.auditLog ∨ e.action = "rate-limit.exceeded") := by
  induction ts with
  | nil =>
    intro s
    exact ⟨by simp [runRateLimit], fun e he => Or.inl he⟩
  | cons t ts ih =>
    intro s
    obtain ⟨c0, ws0, -, -, hlook, -, haudT, haudF⟩ := checkRateLimit_spec s a t
    have hrun : runRateLimit s a (t :: ts) =
        (((checkRateLimit s a t).2, ws0) ::
            (runRateLimit (checkRateLimit s a t).1 a ts).1,
          (runRateLimit (checkRateLimit s a t).1 a ts).2) := by
      simp only [runRateLimit, hlook]
      rfl
    obtain ⟨ihLen, ihMem⟩ := ih (checkRateLimit s a t).1
    by_cases hb : (checkRateLimit s a t).2 = true
    · have ha := haudT hb
      constructor
      · rw [hrun]
        simp only [List.countP_cons, hb, Bool.not_true]
        rw [ihLen, ha]
        simp
      · intro e he
        rw [hrun] at he
        rcases ihMem e he with hmem | hact
        · rw [ha] at hmem
          exact Or.inl hmem
        · exact Or.inr hact
    · have hb' : (checkRateLimit s a t).2 = false := by
        revert hb
        cases (checkRateLimit s a t).2 <;> simp
      obtain ⟨r, ha⟩ := haudF hb'
      constructor
      · rw [hrun]
        simp only [List.countP_cons, hb', Bool.not_false, if_true]
        rw [ihLen, ha]
        simp only [List.length_append, List.length_singleton]
        omega
      · intro e he
        rw [hrun] at he
        rcases ihMem e he with hmem | hact
        · rw [ha] at hmem
          rcases List.mem_append.mp hmem with hold | hnew
          · exact Or.inl hold
          · right
            rw [List.mem_singleton.mp hnew]
        · exact Or.inr hact

/-- C3 (amended): for an agent whose rate limiter starts with no window
entry, each lazily-reset 60 s window (identified by the `windowStart` value
it records) admits at most `policy(a).maxMessagesPerMinute` calls that
return true, and each denied call appends exactly one audit entry with
action `rate-limit.exceeded`. Across a window reset, a single real-time 60 s
interval can still observe up to twice the limit (see the counterexample),
so the per-window bound is the invariant the code actually provides. -/
theorem c3_rate_limit (s : SecState) (a : String) (ts : List Int)
    (hfresh : lookupA s.rateLimiter a = none) :
    (∀ W : Int, ((runRateLimit s a ts).1.countP
        (fun p => p.1 && decide (p.2 = W))) ≤
      (getPolicy s a).maxMessagesPerMinute) ∧
    ((runRateLimit s a ts).2.auditLog.length =
      s.auditLog.length +
        (runRateLimit s a ts).1.countP (fun p => !p.1)) ∧
    (∀ e ∈ (runRateLimit s a ts).2.auditLog,
      e ∈ s.auditLog ∨ e.action = "rate-limit.exceeded") := by
  obtain ⟨-, hcount⟩ := runRL_window_bound a
    (getPolicy s a).maxMessagesPerMinute ts s rfl
  obtain ⟨hlen, hmem⟩ := runRL_audit a ts s
  refine ⟨fun W => ?_, hlen, hmem⟩
  have h := hcount W
  rw [hfresh] at h
  exact h

/-- C3 counterexample: with limit 2, the calls at times 0, 59999, 60001 and
60002 are all allowed (the window lazily resets at 60001), so the three
calls at 59999, 60001 and 60002 all return true although they lie inside
one 60-second window — the claim's bound of `maxMessagesPerMinute = 2` per
arbitrary 60 s window is violated. -/
theorem c3_counterexample :
    ((runRateLimit demoRateState "a" [0, 59999, 60001, 60002]).1.map
        (fun p => p.1) = [true, true, true, true]) ∧
    ((getPolicy demoRateState "a").maxMessagesPerMinute = 2) ∧
    ((List.zip ([0, 59999, 60001, 60002] : List Int)
        ((runRateLimit demoRateState "a" [0, 59999, 60001, 60002]).1.map
          (fun p => p.1))).countP
        (fun q => q.2 && decide (59999 ≤ q.1 ∧ q.1 ≤ 59999 + 60000)) = 3) ∧
    2 < 3 := by
  exact ⟨rfl, rfl, rfl, by omega⟩

/-- Witness for `c3_rate_limit` on a fresh limiter, instantiated at the
window-start value 0. -/
theorem c3_rate_limit_witness :
    ((runRateLimit demoRateState "a" [0, 59999, 60001, 60002]).1.countP
        (fun p => p.1 && decide (p.2 = (0 : Int)))) ≤
      (getPolicy demoRateState "a").maxMessagesPerMinute :=
  (c3_rate_limit demoRateState "a" [0, 59999, 60001, 60002] rfl).1 0

/-! ### Claim C4: role concurrency quotas -/

theorem lookupA_eq_none_iff {α : Type} (m : List (String × α)) (k : String) :
    lookupA m k = none ↔ k ∉ m.map (fun p => p.1) := by
  unfold lookupA
  rw [Option.map_eq_none', List.find?_eq_none]
  constructor
  · intro h hk
    rcases List.mem_map.mp hk with ⟨p, hp, hpk⟩
    exact h p hp (by simpa using hpk)
  · intro h p hp
    simp only [decide_eq_true_eq]
    intro hpk
    exact h (List.mem_map.mpr ⟨p, hp, hpk⟩)

theorem mem_of_lookupA {α : Type} (m : List (String × α)) (k : String)
    (v : α) (h : lookupA m k = some v) : (k, v) ∈ m := by
  unfold lookupA at h
  rcases Option.map_eq_some'.mp h with ⟨p, hp, hpv⟩
  have hk := List.find?_some hp
  have hm := List.mem_of_find?_eq_some hp
  simp only [decide_eq_true_eq] at hk
  obtain ⟨p1, p2⟩ := p
  dsimp only at hk hpv
  subst hk hpv
  exact hm

theorem keys_insertA {α : Type} (m : List (String × α)) (k : String)
    (v : α) :
    (insertA m k v).map (fun p => p.1) =
      if (m.find? (fun p => p.1 = k)).isSome then m.map (fun p => p.1)
      else m.map (fun p => p.1) ++ [k] := by
  unfold insertA
  split_ifs with h
  · rw [List.map_map]
    apply List.map_congr_left
    intro p hp
    by_cases hpk : p.1 = k
    · simp [hpk]
    · simp [hpk]
  · simp

theorem nodup_keys_insertA {α : Type} (m : List (String × α)) (k : String)
    (v : α) (h : (m.map (fun p => p.1)).Nodup) :
    ((insertA m k v).map (fun p => p.1)).Nodup := by
  rw [keys_insertA]
  split_ifs with hf
  · exact h
  · rw [List.nodup_append]
    refine ⟨h, List.nodup_singleton k, ?_⟩
    intro x hx hk
    rw [List.mem_singleton.mp hk] at hx
    have hnone : m.find? (fun p => decide (p.1 = k)) = none :=
      Option.not_isSome_iff_eq_none.mp hf
    have : lookupA m k = none := by
      unfold lookupA
      rw [hnone]
      rfl
    exact (lookupA_eq_none_iff m k).mp this hx

theorem nodup_keys_eraseA {α : Type} (m : List (String × α)) (k : String)
    (h : (m.map (fun p => p.1)).Nodup) :
    ((eraseA m k).map (fun p => p.1)).Nodup := by
  unfold eraseA
  exact List.Nodup.sublist
    ((List.filter_sublist m).map (fun p => p.1)) h

theorem map_replace_of_lookup_ne {α : Type} (m : List (String × α))
    (k : String) (v : α) (h : lookupA m k = none) :
    m.map (fun p => if p.1 = k then (k, v) else p) = m := by
  induction m with
  | nil => rfl
  | cons p rest ih =>
    have hpk : ¬(p.1 = k) := by
      intro hpk
      unfold lookupA at h
      rw [List.find?_cons_of_pos _ (by simpa using hpk)] at h
      simp at h
    have hrest : lookupA rest k = none := by
      unfold lookupA at h ⊢
      rwa [List.find?_cons_of_neg _ (by simpa using hpk)] at h
    rw [List.map_cons, if_neg hpk, ih hrest]

theorem countP_insertA_none {α : Type} (m : List (String × α)) (k : String)
    (v : α) (pred : α → Bool) (h : lookupA m k = none) :
    (insertA m k v).countP (fun p => pred p.2) =
      m.countP (fun p => pred p.2) + (if pred v then 1 else 0) := by
  unfold insertA
  have hf : (m.find? (fun p => p.1 = k)).isSome = false := by
    unfold lookupA at h
    rw [Option.map_eq_none'.mp h]
    rfl
  rw [if_neg (by simp [hf]), List.countP_append]
  simp [List.countP_cons]

theorem countP_insertA_some {α : Type} (m : List (String × α)) (k : String)
    (v old : α) (pred : α → Bool)
    (hnd : (m.map (fun p => p.1)).Nodup) (h : lookupA m k = some old) :
    (insertA m k v).countP (fun p => pred p.2) + (if pred old then 1 else 0) =
      m.countP (fun p => pred p.2) + (if pred v then 1 else 0) := by
  induction m with
  | nil => cases h
  | cons p rest ih =>
    rw [List.map_cons, List.nodup_cons] at hnd
    by_cases hp : p.1 = k
    · have hold : p.2 = old := by
        unfold lookupA at h
        rw [List.find?_cons_of_pos _ (by simpa using hp)] at h
        exact Option.some.inj h
      have hrest : lookupA rest k = none := by
        rw [lookupA_eq_none_iff]
        rw [← hp]
        exact hnd.1
      have hfind : ((p :: rest).find? (fun q => q.1 = k)).isSome = true := by
        rw [List.find?_cons_of_pos _ (by simpa using hp)]
        rfl
      unfold insertA
      rw [if_pos hfind, List.map_cons, if_pos hp,
        map_replace_of_lookup_ne rest k v hrest]
      simp only [List.countP_cons, hold]
      omega
    · have hlk : lookupA rest k = some old := by
        unfold lookupA at h ⊢
        rwa [List.find?_cons_of_neg _ (by simpa using hp)] at h
      have hih := ih hnd.2 hlk
      have hfind : ((p :: rest).find? (fun q => q.1 = k)) =
          rest.find? (fun q => q.1 = k) := by
        rw [List.find?_cons_of_neg _ (by simpa using hp)]
      have hfs : (rest.find? (fun q => q.1 = k)).isSome = true := by
        unfold lookupA at hlk
        rcases Option.map_eq_some'.mp hlk with ⟨q, hq, -⟩
        rw [hq]
        rfl
      unfold insertA at hih ⊢
      rw [if_pos (by rw [hfind]; exact hfs), List.map_cons, if_neg hp]
      rw [if_pos hfs] at hih
      simp only [List.countP_cons]
      omega

theorem countP_eraseA_le {α : Type} (m : List (String × α)) (k : String)
    (pred : α → Bool) :
    (eraseA m k).countP (fun p => pred p.2) ≤
      m.countP (fun p => pred p.2) := by
  unfold eraseA
  induction m with
  | nil => simp
  | cons p rest ih =>
    by_cases hp : p.1 = k
    · rw [List.filter_cons_of_neg (by simpa using hp)]
      simp only [List.countP_cons]
      omega
    · rw [List.filter_cons_of_pos (by simpa using hp)]
      simp only [List.countP_cons]
      omega

theorem lookupA_of_mem_nodup {α : Type} (m : List (String × α))
    (k : String) (v : α) (hnd : (m.map (fun p => p.1)).Nodup)
    (hm : (k, v) ∈ m) : lookupA m k = some v := by
  induction m with
  | nil => cases hm
  | cons p rest ih =>
    rw [List.map_cons, List.nodup_cons] at hnd
    rcases List.mem_cons.mp hm with he | hm'
    · rw [← he]
      unfold lookupA
      rw [List.find?_cons_of_pos _ (by simp)]
      rfl
    · have hpk : ¬(p.1 = k) := by
        intro h
        exact hnd.1 (h ▸ List.mem_map.mpr ⟨(k, v), hm', rfl⟩)
      unfold lookupA
      rw [List.find?_cons_of_neg _ (by simpa using hpk)]
      exact ih hnd.2 hm'

/-- `unassignRole` preserves the quota invariant. -/
theorem quotaInv_unassign (s : RoleManagerState) (iid : String)
    (hinv : QuotaInv s) : QuotaInv (unassignRole s iid).1 := by
  obtain ⟨h1, h2, h3, h4⟩ := hinv
  refine ⟨h1, h2, nodup_keys_eraseA _ _ h3, ?_⟩
  intro p hp k hk
  have h := h4 p hp k hk
  unfold countAgentsWithRole at h ⊢
  unfold unassignRole
  dsimp only
  exact le_trans (countP_eraseA_le s.assignments iid
    (fun a => decide (a.role.roleId = p.1))) h

/-- `removeRole` preserves the quota invariant. -/
theorem quotaInv_remove (s : RoleManagerState) (roleId : String)
    (hinv : QuotaInv s) : QuotaInv (removeRole s roleId) := by
  obtain ⟨h1, h2, h3, h4⟩ := hinv
  refine ⟨?_, nodup_keys_eraseA _ _ h2, h3, ?_⟩
  · intro p hp
    exact h1 p (List.mem_of_mem_filter hp)
  · intro p hp k hk
    exact h4 p (List.mem_of_mem_filter hp) k hk

/-- `assignRole` preserves the quota invariant. -/
theorem quotaInv_assign (s : RoleManagerState) (agent : MultiAgentIdentity)
    (roleId assignedBy : String) (now : Int) (hinv : QuotaInv s) :
    QuotaInv (assignRole s agent roleId assignedBy now).1 := by
  obtain ⟨h1, h2, h3, h4⟩ := hinv
  unfold assignRole
  cases hrole : lookupA s.roles roleId with
  | none => exact ⟨h1, h2, h3, h4⟩
  | some role =>
    dsimp only
    split_ifs with hb
    · exact ⟨h1, h2, h3, h4⟩
    · refine ⟨h1, h2, nodup_keys_insertA _ _ _ h3, ?_⟩
      intro p hp k' hk'
      have hrr : role.roleId = roleId :=
        h1 (roleId, role) (mem_of_lookupA _ _ _ hrole)
      have h4' := h4 p hp k' hk'
      unfold countAgentsWithRole at h4' hb ⊢
      dsimp only
      by_cases hrid : p.1 = roleId
      · rw [hrid] at h4' ⊢
        have hpro : p.2 = role := by
          have hl := lookupA_of_mem_nodup s.roles p.1 p.2 h2
            (by simpa using hp)
          rw [hrid] at hl
          rw [hl] at hrole
          exact Option.some.inj hrole
        have hmax : role.maxConcurrent = some k' := by
          rw [← hpro]
          exact hk'
        rw [hmax] at hb
        cases hold : lookupA s.assignments agent.agentInstanceId with
        | none =>
          rw [hold] at hb
          simp only [Bool.not_false, Bool.true_and, decide_eq_true_eq,
            ge_iff_le, not_le] at hb
          have hcount := countP_insertA_none s.assignments
            agent.agentInstanceId
            { agentInstanceId := agent.agentInstanceId
              agentConfigId := agent.agentConfigId
              gatewayId := agent.gatewayId
              role := role
              assignedAt := now
              assignedBy := assignedBy }
            (fun a => decide (a.role.roleId = roleId)) hold
          beta_reduce at hcount
          dsimp only at hcount
          rw [hcount]
          rw [if_pos (by simpa using hrr)]
          omega
        | some old =>
          rw [hold] at hb
          simp only [Bool.and_eq_true, Bool.not_eq_true',
            decide_eq_true_eq, ge_iff_le, not_and, not_le,
            decide_eq_false_iff_not] at hb
          have hcount := countP_insertA_some s.assignments
            agent.agentInstanceId
            { agentInstanceId := agent.agentInstanceId
              agentConfigId := agent.agentConfigId
              gatewayId := agent.gatewayId
              role := role
              assignedAt := now
              assignedBy := assignedBy }
            old (fun a => decide (a.role.roleId = roleId)) h3 hold
          beta_reduce at hcount
          dsimp only at hcount
          by_cases halready : old.role.roleId = roleId
          · rw [if_pos (by simpa using halready),
              if_pos (by simpa using hrr)] at hcount
            omega
          · have hlt := hb halready
            rw [if_neg (by simpa using halready),
              if_pos (by simpa using hrr)] at hcount
            omega
      · have hne : ¬(role.roleId = p.1) := by
          rw [hrr]
          exact fun h => hrid h.symm
        cases hold : lookupA s.assignments agent.agentInstanceId with
        | none =>
          have hcount := countP_insertA_none s.assignments
            agent.agentInstanceId
            { agentInstanceId := agent.agentInstanceId
              agentConfigId := agent.agentConfigId
              gatewayId := agent.gatewayId
              role := role
              assignedAt := now
              assignedBy := assignedBy }
            (fun a => decide (a.role.roleId = p.1)) hold
          beta_reduce at hcount
          dsimp only at hcount
          rw [hcount]
          rw [if_neg (by simpa using hne)]
          omega
        | some old =>
          have hcount := countP_insertA_some s.assignments
            agent.agentInstanceId
            { agentInstanceId := agent.agentInstanceId
              agentConfigId := agent.agentConfigId
              gatewayId := agent.gatewayId
              role := role
              assignedAt := now
              assignedBy := assignedBy }
            old (fun a => decide (a.role.roleId = p.1)) h3 hold
          beta_reduce at hcount
          dsimp only at hcount
          by_cases holdp : old.role.roleId = p.1
          · rw [if_pos (by simpa using holdp),
              if_neg (by simpa using hne)] at hcount
            omega
          · rw [if_neg (by simpa using holdp),
              if_neg (by simpa using hne)] at hcount
            omega

/-- The quota invariant is preserved by any sequence of quota-safe
operations. -/
theorem quotaInv_applyRoleOps (ops : List RoleOp) :
    ∀ s : RoleManagerState, QuotaInv s → (∀ op ∈ ops, QuotaSafeOp op) →
    QuotaInv (applyRoleOps s ops) := by
  induction ops with
  | nil =>
    intro s hinv _
    exact hinv
  | cons op rest ih =>
    intro s hinv hops
    have hop : QuotaSafeOp op := hops op (List.mem_cons_self _ _)
    have hstep : QuotaInv (applyRoleOp s op) := by
      cases op with
      | defineR r => exact (hop : False).elim
      | importR d => exact (hop : False).elim
      | removeR rid => exact quotaInv_remove s rid hinv
      | assignR a rid ab n => exact quotaInv_assign s a rid ab n hinv
      | unassignR iid => exact quotaInv_unassign s iid hinv
    exact ih (applyRoleOp s op) hstep
      (fun o ho => hops o (List.mem_cons_of_mem _ ho))

/-- C4 (amended): starting from a state satisfying the quota invariant, any
sequence of `assignRole`, `unassignRole` and `removeRole` operations keeps,
for every defined role with `maxConcurrent = k`, the number of assignments
referencing that role at most `k` (`defineRole` lowering a quota and
`importState` can break the bound, see the counterexample). Moreover
`assignRole` returns null exactly when the role is missing, or
`maxConcurrent` is set, the agent does not already hold the role, and the
active count has reached the quota; and on success it replaces the agent's
prior assignment. -/
theorem c4_role_quota (s : RoleManagerState) (ops : List RoleOp)
    (agent : MultiAgentIdentity) (roleId assignedBy : String) (now : Int)
    (hinv : QuotaInv s) (hops : ∀ op ∈ ops, QuotaSafeOp op) :
    (∀ p ∈ (applyRoleOps s ops).roles, ∀ k, p.2.maxConcurrent = some k →
      countAgentsWithRole (applyRoleOps s ops) p.1 ≤ k) ∧
    ((assignRole s agent roleId assignedBy now).2 = none ↔
      (lookupA s.roles roleId = none ∨
       ∃ role k, lookupA s.roles roleId = some role ∧
         role.maxConcurrent = some k ∧
         ¬(∃ cur, lookupA s.assignments agent.agentInstanceId = some cur ∧
            cur.role.roleId = roleId) ∧
         k ≤ countAgentsWithRole s roleId)) ∧
    (∀ asg, (assignRole s agent roleId assignedBy now).2 = some asg →
      (assignRole s agent roleId assignedBy now).1.assignments =
        insertA s.assignments agent.agentInstanceId asg) := by
  refine ⟨(quotaInv_applyRoleOps ops s hinv hops).2.2.2, ?_, ?_⟩
  · unfold assignRole
    cases hrole : lookupA s.roles roleId with
    | none => simp
    | some role =>
      dsimp only
      split_ifs with hb
      · refine iff_of_true rfl ?_
        cases hmax : role.maxConcurrent with
        | none =>
          rw [hmax] at hb
          cases hb
        | some k =>
          rw [hmax] at hb
          obtain ⟨hnot, hge⟩ := Bool.and_eq_true_iff.mp hb
          refine Or.inr ⟨role, k, rfl, hmax, ?_, ?_⟩
          · rintro ⟨cur, hcur, hcr⟩
            rw [hcur] at hnot
            simp only [Bool.not_eq_true', decide_eq_false_iff_not] at hnot
            exact hnot hcr
          · simpa using of_decide_eq_true hge
      · refine iff_of_false (by simp) ?_
        rintro (hnone | ⟨role', k, hrole', hmax', hnex, hge⟩)
        · cases hnone
        · have hre : role' = role := (Option.some.inj hrole').symm
          subst hre
          apply hb
          rw [hmax']
          rw [Bool.and_eq_true_iff]
          constructor
          · cases hold : lookupA s.assignments agent.agentInstanceId with
            | none => rfl
            | some cur =>
              simp only [Bool.not_eq_true', decide_eq_false_iff_not]
              intro hcr
              exact hnex ⟨cur, hold, hcr⟩
          · simpa using hge
  · intro asg hasg
    unfold assignRole at hasg ⊢
    cases hrole : lookupA s.roles roleId with
    | none =>
      rw [hrole] at hasg
      dsimp only at hasg
      cases hasg
    | some role =>
      rw [hrole] at hasg
      dsimp only at hasg ⊢
      split_ifs at hasg ⊢ with hb
      dsimp only at hasg
      have he := Option.some.inj hasg
      subst he
      rfl

/-- C4 counterexample: `importState` does not check quotas — importing two
monitor assignments while monitor has `maxConcurrent = 1` produces a
reachable state whose assignment count for the role exceeds the quota, so
the claim's invariant fails for sequences containing `importState`. -/
theorem c4_counterexample :
    ((lookupA (applyRoleOps demoRoleState
        [RoleOp.importR
          { roles := [demoMonitorRole]
            assignments := [demoAssignmentOf "a1",
              demoAssignmentOf "a2"] }]).roles "monitor").map
        (fun r => r.maxConcurrent) = some (some 1)) ∧
    countAgentsWithRole (applyRoleOps demoRoleState
        [RoleOp.importR
          { roles := [demoMonitorRole]
            assignments := [demoAssignmentOf "a1",
              demoAssignmentOf "a2"] }]) "monitor" = 2 ∧
    ¬(2 ≤ 1) := by
  exact ⟨rfl, rfl, by omega⟩

/-- Witness for `c4_role_quota`: after assigning two agents to monitor (the
second returns null), the monitor count stays at most 1. -/
theorem c4_role_quota_witness :
    countAgentsWithRole (applyRoleOps demoRoleState
      [RoleOp.assignR (demoAgent "a1") "monitor" "admin" 0,
       RoleOp.assignR (demoAgent "a2") "monitor" "admin" 1]) "monitor" ≤ 1 :=
  (c4_role_quota demoRoleState
    [RoleOp.assignR (demoAgent "a1") "monitor" "admin" 0,
     RoleOp.assignR (demoAgent "a2") "monitor" "admin" 1]
    (demoAgent "a1") "monitor" "admin" 0
    (by refine ⟨?_, ?_, ?_, ?_⟩ <;> decide)
    (by intro op hop; fin_cases hop <;> trivial)).1
    ("monitor", demoMonitorRole) (by decide) 1 rfl

/-! ### Claim C9: agent selection -/

theorem lpLe_refl (x : MultiAgentIdentity × Rat × Int) : lpLe x x = true := by
  unfold lpLe
  rw [decide_eq_true_eq]
  exact Or.inr ⟨rfl, le_refl _⟩

theorem lpLe_total (x y : MultiAgentIdentity × Rat × Int) :
    lpLe x y = true ∨ lpLe y x = true := by
  unfold lpLe
  simp only [decide_eq_true_eq]
  rcases lt_trichotomy x.2.1 y.2.1 with h | h | h
  · exact Or.inl (Or.inl h)
  · rcases le_total y.2.2 x.2.2 with hp | hp
    · exact Or.inl (Or.inr ⟨h, hp⟩)
    · exact Or.inr (Or.inr ⟨h.symm, hp⟩)
  · exact Or.inr (Or.inl h)

theorem lpLe_trans (x y z : MultiAgentIdentity × Rat × Int)
    (h1 : lpLe x y = true) (h2 : lpLe y z = true) : lpLe x z = true := by
  unfold lpLe at h1 h2 ⊢
  simp only [decide_eq_true_eq] at h1 h2 ⊢
  rcases h1 with h1 | ⟨h1e, h1p⟩ <;> rcases h2 with h2 | ⟨h2e, h2p⟩
  · exact Or.inl (lt_trans h1 h2)
  · exact Or.inl (h2e ▸ h1)
  · exact Or.inl (h1e ▸ h2)
  · exact Or.inr ⟨h1e.trans h2e, le_trans h2p h1p⟩

theorem mem_insertLe {α : Type} (le : α → α → Bool) (x : α) (l : List α)
    (y : α) : y ∈ insertLe le x l ↔ y = x ∨ y ∈ l := by
  induction l with
  | nil => simp [insertLe]
  | cons z zs ih =>
    unfold insertLe
    split_ifs with h
    · simp [List.mem_cons]
    · simp only [List.mem_cons, ih]
      tauto

theorem mem_isort {α : Type} (le : α → α → Bool) (l : List α) (y : α) :
    y ∈ isort le l ↔ y ∈ l := by
  induction l with
  | nil => simp [isort]
  | cons z zs ih =>
    unfold isort
    rw [mem_insertLe, ih, List.mem_cons]

theorem isort_head_le {α : Type} (le : α → α → Bool)
    (hrefl : ∀ x, le x x = true)
    (htot : ∀ x y, le x y = true ∨ le y x = true)
    (htrans : ∀ x y z, le x y = true → le y z = true → le x z = true)
    (l : List α) :
    ∀ (h : α) (t : List α), isort le l = h :: t → ∀ z ∈ l, le h z = true := by
  induction l with
  | nil =>
    intro h t heq
    cases heq
  | cons x xs ih =>
    intro h t heq z hz
    unfold isort at heq
    cases hs : isort le xs with
    | nil =>
      rw [hs] at heq
      unfold insertLe at heq
      have hhx : h = x := (List.cons.inj heq).1.symm
      rcases List.mem_cons.mp hz with hzx | hzxs
      · rw [hhx, hzx]
        exact hrefl x
      · exact absurd ((mem_isort le xs z).mpr hzxs) (by rw [hs]; simp)
    | cons y ys =>
      rw [hs] at heq
      have ihy := ih y ys hs
      unfold insertLe at heq
      split_ifs at heq with hxy
      · have hhx : h = x := (List.cons.inj heq).1.symm
        rcases List.mem_cons.mp hz with hzx | hzxs
        · rw [hhx, hzx]
          exact hrefl x
        · rw [hhx]
          exact htrans x y z hxy (ihy z hzxs)
      · have hhy : h = y := (List.cons.inj heq).1.symm
        have hyx : le y x = true := by
          rcases htot x y with h1 | h1
          · exact absurd h1 hxy
          · exact h1
        rcases List.mem_cons.mp hz with hzx | hzxs
        · rw [hhy, hzx]
          exact hyx
        · rw [hhy]
          exact ihy z hzxs

/-- Reduction of `selectAgent` in the role-targeted case to the candidate
list. -/
theorem selectAgent_role_eq (st : OrchState) (rid : String) :
    selectAgent st (some rid) none =
      (if (st.localAgents.map (fun p => p.2)).isEmpty then none
       else if (roleCandidates st rid).isEmpty then none
       else ((isort lpLe ((roleCandidates st rid).map (fun agent =>
          (agent, loadOf st agent.agentInstanceId,
           priorityOf st agent.agentInstanceId)))).head?).map
          (fun (p : MultiAgentIdentity × Rat × Int) => p.1)) := by
  unfold selectAgent roleCandidates
  rfl

/-- C9: when `submitTask` is called with a target role and no direct target,
any selected agent is a locally registered agent holding that role, of
minimal load (latest heartbeat load, default 0), ties broken by maximal
role priority (default 50); and when no candidate exists, the returned task
is still `pending` and assigned to no agent. -/
theorem c9_select_agent (st : OrchState) (rid : String)
    (opts : SubmitTaskOpts) (taskId corrId : String) (now : Int)
    (hrole : opts.targetRoleId = some rid)
    (hdirect : opts.targetAgentInstanceId = none) :
    (∀ a, selectAgent st (some rid) none = some a →
      a ∈ roleCandidates st rid ∧
      (∀ b ∈ roleCandidates st rid,
        loadOf st a.agentInstanceId ≤ loadOf st b.agentInstanceId ∧
        (loadOf st b.agentInstanceId = loadOf st a.agentInstanceId →
          priorityOf st b.agentInstanceId ≤
            priorityOf st a.agentInstanceId))) ∧
    (selectAgent st (some rid) none = none →
      (submitTask st opts taskId corrId now).2.status = TaskStatus.pending ∧
      (submitTask st opts taskId corrId now).2.assignedTo = none) := by
  constructor
  · intro a ha
    rw [selectAgent_role_eq] at ha
    by_cases h1 : (st.localAgents.map (fun p => p.2)).isEmpty
    · rw [if_pos h1] at ha
      cases ha
    · rw [if_neg h1] at ha
      by_cases h2 : (roleCandidates st rid).isEmpty
      · rw [if_pos h2] at ha
        cases ha
      · rw [if_neg h2] at ha
        cases hiso : isort lpLe ((roleCandidates st rid).map (fun agent =>
          (agent, loadOf st agent.agentInstanceId,
               priorityOf st agent.agentInstanceId))) with
        | nil =>
          rw [hiso] at ha
          simp at ha
        | cons hd tl =>
          rw [hiso] at ha
          simp only [List.head?_cons, Option.map_some'] at ha
          have hd1 : hd.1 = a := Option.some.inj ha
          have hdmem : hd ∈ (roleCandidates st rid).map (fun agent =>
              (agent, loadOf st agent.agentInstanceId,
               priorityOf st agent.agentInstanceId)) := by
            rw [← mem_isort lpLe]
            rw [hiso]
            exact List.mem_cons_self _ _
          obtain ⟨c, hc, hceq⟩ := List.mem_map.mp hdmem
          have hca : c = a := by
            rw [← hd1, ← hceq]
          subst hca
          refine ⟨hc, ?_⟩
          intro b hb
          have hbmem : (b, loadOf st b.agentInstanceId,
              priorityOf st b.agentInstanceId) ∈
              (roleCandidates st rid).map (fun agent =>
                (agent, loadOf st agent.agentInstanceId,
                 priorityOf st agent.agentInstanceId)) :=
            List.mem_map.mpr ⟨b, hb, rfl⟩
          have hle := isort_head_le lpLe lpLe_refl lpLe_total lpLe_trans
            _ hd tl hiso _ hbmem
          rw [← hceq] at hle
          unfold lpLe at hle
          rw [decide_eq_true_eq] at hle
          dsimp only at hle
          rcases hle with hlt | ⟨heq, hpr⟩
          · refine ⟨le_of_lt hlt, ?_⟩
            intro heq'
            exact absurd (heq' ▸ hlt) (lt_irrefl _)
          · exact ⟨le_of_eq heq, fun _ => hpr⟩
  · intro hnone
    unfold submitTask
    rw [hrole, hdirect, hnone]
    dsimp only
    exact ⟨rfl, rfl⟩

/-- Witness for `c9_select_agent`: in `demoOrchState` the selector picks
agent a2 (load 0 beats load 1), a candidate of minimal load. -/
theorem c9_select_agent_witness :
    (demoAgent "a2") ∈ roleCandidates demoOrchState "coder" ∧
    loadOf demoOrchState (demoAgent "a2").agentInstanceId ≤
      loadOf demoOrchState (demoAgent "a1").agentInstanceId := by
  have h := (c9_select_agent demoOrchState "coder"
    { task := "demo", targetRoleId := some "coder" } "t1" "c1" 0 rfl rfl).1
    (demoAgent "a2") (by decide)
  exact ⟨h.1, (h.2 (demoAgent "a1") (by decide)).1⟩

/-! ### Claim C2: cleanup -/

theorem cleanupStep_tasks_of_clean (c : Int) (acc : WorkTracker × Nat)
    (kv : String × TrackedTask) (h : shouldCleanup c kv.2 = true) :
    (cleanupStep c acc kv).1.tasks = eraseA acc.1.tasks kv.1 := by
  unfold cleanupStep
  rw [if_pos h]

theorem cleanupStep_of_not_clean (c : Int) (acc : WorkTracker × Nat)
    (kv : String × TrackedTask) (h : shouldCleanup c kv.2 = false) :
    cleanupStep c acc kv = acc := by
  unfold cleanupStep
  rw [if_neg (by simp [h])]

theorem cleanup_fold_tasks (c : Int) (l : List (String × TrackedTask)) :
    ∀ acc : WorkTracker × Nat,
    ((l.foldl (cleanupStep c) acc).1).tasks =
      acc.1.tasks.filter (fun p => decide (p.1 ∉ removedKeys c l)) := by
  induction l with
  | nil =>
    intro acc
    simp [removedKeys]
  | cons kv l ih =>
    intro acc
    rw [List.foldl_cons]
    by_cases hc : shouldCleanup c kv.2 = true
    · rw [ih (cleanupStep c acc kv), cleanupStep_tasks_of_clean c acc kv hc]
      unfold eraseA
      rw [List.filter_filter]
      have hrk : removedKeys c (kv :: l) = kv.1 :: removedKeys c l := by
        unfold removedKeys
        rw [List.filter_cons_of_pos (by simpa using hc), List.map_cons]
      rw [hrk]
      apply List.filter_congr
      intro p hp
      simp only [List.mem_cons, not_or, Bool.decide_and, decide_not]
      exact Bool.and_comm _ _
    · have hc' : shouldCleanup c kv.2 = false := by
        revert hc
        cases shouldCleanup c kv.2 <;> simp
      rw [cleanupStep_of_not_clean c acc kv hc', ih acc]
      have hrk : removedKeys c (kv :: l) = removedKeys c l := by
        unfold removedKeys
        rw [List.filter_cons_of_neg (by simp [hc'])]
      rw [hrk]

theorem cleanup_fold_count (c : Int) (l : List (String × TrackedTask)) :
    ∀ acc : WorkTracker × Nat,
    (l.foldl (cleanupStep c) acc).2 =
      acc.2 + l.countP (fun kv => shouldCleanup c kv.2) := by
  induction l with
  | nil =>
    intro acc
    simp
  | cons kv l ih =>
    intro acc
    rw [List.foldl_cons, List.countP_cons, ih (cleanupStep c acc kv)]
    by_cases hc : shouldCleanup c kv.2 = true
    · have hstep : (cleanupStep c acc kv).2 = acc.2 + 1 := by
        unfold cleanupStep
        rw [if_pos hc]
      rw [hstep, hc]
      simp only [if_pos]
      omega
    · have hc' : shouldCleanup c kv.2 = false := by
        revert hc
        cases shouldCleanup c kv.2 <;> simp
      rw [cleanupStep_of_not_clean c acc kv hc', hc']
      simp

theorem lookupA_removeFromIndex_self (m : List (String × List String))
    (k tid : String) :
    lookupA (removeFromIndex m k tid) k =
      (lookupA m k).map (fun s => s.filter (fun x => x ≠ tid)) := by
  induction m with
  | nil => rfl
  | cons p rest ih =>
    unfold removeFromIndex at ih ⊢
    by_cases hp : p.1 = k
    · unfold lookupA
      rw [List.map_cons, if_pos hp,
        List.find?_cons_of_pos _ (by simpa using hp),
        List.find?_cons_of_pos _ (by simpa using hp)]
      rfl
    · unfold lookupA at ih ⊢
      rw [List.map_cons, if_neg hp,
        List.find?_cons_of_neg _ (by simpa using hp),
        List.find?_cons_of_neg _ (by simpa using hp)]
      exact ih

theorem lookupA_removeFromIndex_ne (m : List (String × List String))
    (k k' tid : String) (hkk : k' ≠ k) :
    lookupA (removeFromIndex m k tid) k' = lookupA m k' := by
  induction m with
  | nil => rfl
  | cons p rest ih =>
    unfold removeFromIndex at ih ⊢
    by_cases hp : p.1 = k
    · have hp' : ((p.1, p.2.filter (fun x => x ≠ tid)) : String × List String).1
          = p.1 := rfl
      unfold lookupA at ih ⊢
      rw [List.map_cons, if_pos hp]
      by_cases hpk : p.1 = k'
      · exact absurd (hpk.symm.trans hp) hkk
      · rw [List.find?_cons_of_neg _ (by simpa using hpk),
          List.find?_cons_of_neg _ (by simpa using hpk)]
        exact ih
    · unfold lookupA at ih ⊢
      rw [List.map_cons, if_neg hp]
      by_cases hpk : p.1 = k'
      · rw [List.find?_cons_of_pos _ (by simpa using hpk),
          List.find?_cons_of_pos _ (by simpa using hpk)]
      · rw [List.find?_cons_of_neg _ (by simpa using hpk),
          List.find?_cons_of_neg _ (by simpa using hpk)]
        exact ih

theorem notInIndex_removeFromIndex (m : List (String × List String))
    (aid tid k tid' : String) (h : notInIndex m aid tid) :
    notInIndex (removeFromIndex m k tid') aid tid := by
  unfold notInIndex at h ⊢
  by_cases hak : aid = k
  · subst hak
    rw [lookupA_removeFromIndex_self]
    cases hl : lookupA m aid with
    | none => simp
    | some s =>
      rw [hl] at h
      simp only [Option.getD_some, Option.map_some']
      intro hmem
      exact h (List.mem_of_mem_filter hmem)
  · rw [lookupA_removeFromIndex_ne _ _ _ _ hak]
    exact h

theorem notInIndex_removeFromIndex_self (m : List (String × List String))
    (aid tid : String) :
    notInIndex (removeFromIndex m aid tid) aid tid := by
  unfold notInIndex
  rw [lookupA_removeFromIndex_self]
  cases hl : lookupA m aid with
  | none => simp
  | some s =>
    simp only [Option.map_some', Option.getD_some]
    intro hmem
    have := List.of_mem_filter hmem
    simp at this

theorem lookupA_none_eraseA (m : List (String × α)) (k x : String)
    (h : lookupA m k = none) : lookupA (eraseA m x) k = none := by
  by_cases hxk : k = x
  · subst hxk
    exact lookupA_eraseA_self m k
  · rw [lookupA_eraseA_ne m x k hxk]
    exact h

theorem cleanupStep_pres_purged (c : Int) (acc : WorkTracker × Nat)
    (kv : String × TrackedTask) (t : TrackedTask) (k : String)
    (h : IndexPurged acc.1 t k) : IndexPurged (cleanupStep c acc kv).1 t k := by
  obtain ⟨h1, h2, h3⟩ := h
  unfold cleanupStep
  dsimp only
  split_ifs with hc
  · refine ⟨?_, ?_, ?_⟩
    · intro ag hag
      have hbase := h1 ag hag
      cases hA : kv.2.assignedTo with
      | none => exact hbase
      | some a => exact notInIndex_removeFromIndex _ _ _ _ _ hbase
    · intro pid hpid
      have hbase := h2 pid hpid
      cases hP : kv.2.workflowPlanId with
      | none => exact hbase
      | some p => exact notInIndex_removeFromIndex _ _ _ _ _ hbase
    · intro sid hsid
      have hbase := h3 sid hsid
      cases hS : kv.2.workflowStepId with
      | none => exact hbase
      | some s => exact lookupA_none_eraseA _ _ _ hbase
  · exact ⟨h1, h2, h3⟩

theorem cleanup_fold_pres_purged (c : Int)
    (l : List (String × TrackedTask)) :
    ∀ (acc : WorkTracker × Nat) (t : TrackedTask) (k : String),
    IndexPurged acc.1 t k → IndexPurged (l.foldl (cleanupStep c) acc).1 t k := by
  induction l with
  | nil =>
    intro acc t k h
    exact h
  | cons kv l ih =>
    intro acc t k h
    rw [List.foldl_cons]
    exact ih _ t k (cleanupStep_pres_purged c acc kv t k h)

theorem cleanupStep_establish_purged (c : Int) (acc : WorkTracker × Nat)
    (k : String) (t : TrackedTask) (hc : shouldCleanup c t = true) :
    IndexPurged (cleanupStep c acc (k, t)).1 t k := by
  unfold cleanupStep
  rw [if_pos (show shouldCleanup c (k, t).2 = true from hc)]
  refine ⟨?_, ?_, ?_⟩
  · intro ag hag
    dsimp only
    rw [show ((k, t) : String × TrackedTask).2.assignedTo = t.assignedTo
      from rfl, hag]
    exact notInIndex_removeFromIndex_self _ _ _
  · intro pid hpid
    dsimp only
    rw [show ((k, t) : String × TrackedTask).2.workflowPlanId =
      t.workflowPlanId from rfl, hpid]
    exact notInIndex_removeFromIndex_self _ _ _
  · intro sid hsid
    dsimp only
    rw [show ((k, t) : String × TrackedTask).2.workflowStepId =
      t.workflowStepId from rfl, hsid]
    exact lookupA_eraseA_self _ _

theorem lookupA_filter_key_true {α : Type} (m : List (String × α))
    (q : String × α → Bool) (k : String) (hq : ∀ v, q (k, v) = true) :
    lookupA (m.filter q) k = lookupA m k := by
  induction m with
  | nil => rfl
  | cons p rest ih =>
    by_cases hpk : p.1 = k
    · have hqp : q p = true := by
        obtain ⟨p1, p2⟩ := p
        dsimp only at hpk
        subst hpk
        exact hq p2
      rw [List.filter_cons_of_pos hqp]
      unfold lookupA
      rw [List.find?_cons_of_pos _ (by simpa using hpk),
        List.find?_cons_of_pos _ (by simpa using hpk)]
    · by_cases hqp : q p = true
      · rw [List.filter_cons_of_pos hqp]
        unfold lookupA at ih ⊢
        rw [List.find?_cons_of_neg _ (by simpa using hpk),
          List.find?_cons_of_neg _ (by simpa using hpk)]
        exact ih
      · rw [List.filter_cons_of_neg hqp]
        unfold lookupA at ih ⊢
        rw [List.find?_cons_of_neg _ (by simpa using hpk)]
        exact ih

theorem lookupA_filter_key_false {α : Type} (m : List (String × α))
    (q : String × α → Bool) (k : String) (hq : ∀ v, q (k, v) = false) :
    lookupA (m.filter q) k = none := by
  unfold lookupA
  rw [Option.map_eq_none', List.find?_eq_none]
  intro p hp
  have hqp := List.of_mem_filter hp
  simp only [decide_eq_true_eq]
  intro hpk
  obtain ⟨p1, p2⟩ := p
  dsimp only at hpk
  subst hpk
  rw [hq p2] at hqp
  cases hqp

theorem key_unique {α : Type} (m : List (String × α)) (k : String)
    (a b : α) (hnd : (m.map (fun p => p.1)).Nodup)
    (ha : (k, a) ∈ m) (hb : (k, b) ∈ m) : a = b := by
  have h1 := lookupA_of_mem_nodup m k a hnd ha
  have h2 := lookupA_of_mem_nodup m k b hnd hb
  rw [h1] at h2
  exact Option.some.inj h2

/-- C2 (amended): `cleanup(maxAgeMs)` removes exactly the tracked tasks
whose status is `completed`, `cancelled` or `failed` (not only the terminal
two — `failed` is also swept, while `timeout` is kept) and whose
`completedAt ?? createdAt` is older than `now − maxAgeMs`; every other task
is retained unchanged; the removed tasks' entries are purged from the
agent, workflow-plan and step indices; and the returned count equals the
number of tasks removed. -/
theorem c2_cleanup (wt : WorkTracker) (now maxAgeMs : Int)
    (hnd : (wt.tasks.map (fun p => p.1)).Nodup) :
    (∀ k t, (k, t) ∈ wt.tasks →
      (shouldCleanup (now - maxAgeMs) t = true →
        lookupA (cleanup wt now maxAgeMs).1.tasks k = none) ∧
      (shouldCleanup (now - maxAgeMs) t = false →
        lookupA (cleanup wt now maxAgeMs).1.tasks k = some t)) ∧
    ((cleanup wt now maxAgeMs).2 =
      wt.tasks.countP (fun kv => shouldCleanup (now - maxAgeMs) kv.2)) ∧
    (∀ k t, (k, t) ∈ wt.tasks → shouldCleanup (now - maxAgeMs) t = true →
      IndexPurged (cleanup wt now maxAgeMs).1 t k) := by
  refine ⟨?_, ?_, ?_⟩
  · intro k t hkt
    have htasks := cleanup_fold_tasks (now - maxAgeMs) wt.tasks (wt, 0)
    constructor
    · intro hc
      unfold cleanup
      rw [htasks]
      apply lookupA_filter_key_false
      intro v
      simp only [decide_eq_false_iff_not, not_not]
      exact List.mem_map.mpr ⟨(k, t),
        List.mem_filter.mpr ⟨hkt, by simpa using hc⟩, rfl⟩
    · intro hcf
      unfold cleanup
      rw [htasks]
      have hknotin : k ∉ removedKeys (now - maxAgeMs) wt.tasks := by
        intro hkin
        obtain ⟨kv, hkvf, hkv1⟩ := List.mem_map.mp hkin
        have hkvmem := List.mem_filter.mp hkvf
        have hkv2 : kv.2 = t := by
          apply key_unique wt.tasks k _ _ hnd _ hkt
          rw [← hkv1]
          exact hkvmem.1
        rw [hkv2] at hkvmem
        rw [hcf] at hkvmem
        simpa using hkvmem.2
      rw [lookupA_filter_key_true _ _ _ (fun v => by
        simp only [decide_eq_true_eq]
        exact hknotin)]
      exact lookupA_of_mem_nodup _ _ _ hnd hkt
  · unfold cleanup
    rw [cleanup_fold_count]
    simp
  · intro k t hkt hc
    obtain ⟨l1, l2, hsplit⟩ := List.append_of_mem hkt
    unfold cleanup
    rw [hsplit, List.foldl_append, List.foldl_cons]
    exact cleanup_fold_pres_purged _ _ _ t k
      (cleanupStep_establish_purged _ _ k t hc)

/-- C2 counterexample: an old task with the non-terminal status `failed` is
removed by `cleanup`, contradicting the claim that exactly the terminal
(`completed`/`cancelled`) old tasks are removed and every non-terminal task
is retained. -/
theorem c2_counterexample :
    ((lookupA (demoTracker TaskStatus.failed).tasks "t1").map
      (fun t => t.status) = some TaskStatus.failed) ∧
    (cleanup (demoTracker TaskStatus.failed) 200000 100).2 = 1 ∧
    lookupA (cleanup (demoTracker TaskStatus.failed) 200000 100).1.tasks
      "t1" = none := by
  exact ⟨rfl, rfl, rfl⟩

/-- Witness for `c2_cleanup`: a concrete old completed task is removed. -/
theorem c2_cleanup_witness :
    lookupA (cleanup (demoTracker TaskStatus.completed) 200000
      100).1.tasks "t1" = none :=
  ((c2_cleanup (demoTracker TaskStatus.completed) 200000 100
    (by decide)).1 "t1" (demoTask TaskStatus.completed) (by decide)).1
    (by decide)

end RClaw
